import Mathlib

/-!
Verification of the BLAST report post-processing passes of the BlastDocker
repository: the Hit Extractor (`parse_hits` and its helpers in
`www/app/blast_service.py`) and the Report Annotator (`markup_output`,
`markup_chromosomal_coord` and their helpers in `www/app/blast_markup.py`).

Modelling conventions, applied throughout:
  - Python strings are Lean `String`s.  The Python string operations used by
    the code are implemented here over the character list of the string
    (`pySplit` for `str.split(sep)` with a non-empty separator, `pyStrip`
    for `str.strip()`, `pyReplace` for `str.replace`, `pyContains` for
    `sub in s`, `pyStartsWith`/`pyEndsWith` for the prefix/suffix tests),
    matching the Python semantics on these inputs.
  - Python exceptions (TypeError from `str + None`, ValueError from
    `int(...)`/`float(...)`, IndexError from out-of-range subscripts) are
    modelled by `Option`: a function that can raise returns `none` in
    exactly the raising cases, and callers propagate `none`.
  - Python `int(...)` is `pyInt?`, `float(...)` is `pyFloat?` (returning the
    exact rational value of the literal); a parsed float value is carried as
    a `PyFloat`: its rational value together with the text it was parsed
    from, which models `str(value)` (exact whenever the literal is already
    in Python's canonical float notation, as in BLAST reports).
  - Reports are handled line by line; lines are carried without their
    trailing newline, which is faithful because every consumer of a line in
    the source either strips it or is insensitive to it.
  - Python `dict` literals built with distinct keys are association lists;
    `d.get(k)` is `dget d k` (`none` models Python `None`).
-/

/-- Single-quote character, used to build the HTML attribute strings of the
source without embedding the character in string literals. -/
def qc : String := String.singleton (Char.ofNat 39)

/-- Prefix test on character lists. -/
def chStarts : List Char → List Char → Bool
  | _, [] => true
  | [], _ :: _ => false
  | c :: cs, p :: ps => c == p && chStarts cs ps

/-- Substring search on character lists, fuelled by the length of the
scanned list. -/
def chContains (sub : List Char) : ℕ → List Char → Bool
  | 0, s => chStarts s sub
  | fuel + 1, s =>
      if chStarts s sub then true
      else
        match s with
        | [] => false
        | _ :: cs => chContains sub fuel cs

/-- Python `sub in s`: true iff `sub` occurs as a substring of `s`. -/
def pyContains (sub s : String) : Bool := chContains sub.data s.data.length s.data

/-- Splitting worker on character lists: leftmost non-overlapping
occurrences of the separator, fuelled by the length of the scanned list. -/
def chSplitGo (sep : List Char) : ℕ → List Char → List Char → List (List Char)
  | 0, acc, s => [acc.reverse ++ s]
  | fuel + 1, acc, s =>
      if chStarts s sep then
        acc.reverse :: chSplitGo sep fuel [] (s.drop sep.length)
      else
        match s with
        | [] => [acc.reverse]
        | c :: cs => chSplitGo sep fuel (c :: acc) cs

/-- Python `s.split(sep)` for a non-empty separator `sep`. -/
def pySplit (s sep : String) : List String :=
  (chSplitGo sep.data (s.data.length + 1) [] s.data).map String.mk

/-- Replacement worker on character lists, fuelled by the length of the
scanned list. -/
def chReplace (old new : List Char) : ℕ → List Char → List Char
  | 0, s => s
  | fuel + 1, s =>
      if chStarts s old then new ++ chReplace old new fuel (s.drop old.length)
      else
        match s with
        | [] => []
        | c :: cs => c :: chReplace old new fuel cs

/-- Python `s.replace(old, new)` for a non-empty pattern `old`: replaces
every non-overlapping occurrence. -/
def pyReplace (s old new : String) : String :=
  String.mk (chReplace old.data new.data (s.data.length + 1) s.data)

/-- Whitespace as stripped by Python `str.strip()` on the report text. -/
def chIsWs (c : Char) : Bool := c == ' ' || c == '\t' || c == '\n' || c == '\r'

/-- Drop leading whitespace from a character list. -/
def chDropWs : List Char → List Char
  | [] => []
  | c :: cs => if chIsWs c then chDropWs cs else c :: cs

/-- Python `s.strip()`. -/
def pyStrip (s : String) : String :=
  String.mk ((chDropWs (chDropWs s.data).reverse).reverse)

/-- Python `s.startswith(p)`. -/
def pyStartsWith (s p : String) : Bool := chStarts s.data p.data

/-- Python `s.endswith(p)`. -/
def pyEndsWith (s p : String) : Bool := chStarts s.data.reverse p.data.reverse

/-- Digit-string value on character lists: `none` unless the list is
non-empty and all decimal digits. -/
def chNat? : List Char → Option ℕ
  | [] => none
  | cs => chNatGo 0 cs
where
  chNatGo (acc : ℕ) : List Char → Option ℕ
    | [] => some acc
    | c :: cs => if c.isDigit then chNatGo (acc * 10 + (c.toNat - 48)) cs else none

/-- Python `s.isdigit()`. -/
def pyIsDigit (s : String) : Bool := !s.data.isEmpty && s.data.all Char.isDigit

/-- Python `int(s)`: the integer denoted by `s` after stripping whitespace,
`none` when `s` is not an integer literal (modelling ValueError). -/
def pyInt? (s : String) : Option ℤ :=
  match (pyStrip s).data with
  | [] => none
  | c :: cs =>
      if c == '-' then (chNat? cs).map (fun n => -(n : ℤ))
      else if c == '+' then (chNat? cs).map (fun n => (n : ℤ))
      else (chNat? (c :: cs)).map (fun n => (n : ℤ))

/-- Mantissa of a Python float literal: its value as an integer numerator
together with the number of fractional digits; `none` on malformed input. -/
def pyMant? (m : String) : Option (ℤ × ℕ) :=
  match pySplit m "." with
  | [a] => (chNat? a.data).map (fun n => ((n : ℤ), 0))
  | [a, b] =>
      if a.isEmpty && b.isEmpty then none
      else
        match (if a.isEmpty then some 0 else chNat? a.data),
              (if b.isEmpty then some 0 else chNat? b.data) with
        | some ai, some bi =>
            some (((ai * 10 ^ b.data.length + bi : ℕ) : ℤ), b.data.length)
        | _, _ => none
  | _ => none

/-- Exponent of a Python float literal in scientific notation. -/
def pyExp? (ex : String) : Option ℤ :=
  match ex.data with
  | [] => none
  | c :: cs =>
      if c == '-' then (chNat? cs).map (fun n => -(n : ℤ))
      else if c == '+' then (chNat? cs).map (fun n => (n : ℤ))
      else (chNat? (c :: cs)).map (fun n => (n : ℤ))

/-- The rational value of a parsed float: sign, mantissa numerator, number
of fractional digits, decimal exponent. -/
def ratOf (neg : Bool) (num : ℤ) (frac : ℕ) (e : ℤ) : ℚ :=
  let sn : ℤ := if neg then -num else num
  match e with
  | Int.ofNat k => mkRat (sn * 10 ^ k) (10 ^ frac)
  | Int.negSucc k => mkRat sn (10 ^ frac * 10 ^ (k + 1))

/-- Python `float(s)` on decimal and scientific-notation literals: the exact
rational value, `none` on malformed input (modelling ValueError). -/
def pyFloat? (s : String) : Option ℚ :=
  let t := pyReplace (pyStrip s) "E" "e"
  let neg := pyStartsWith t "-"
  let t2 := if neg || pyStartsWith t "+" then String.mk (t.data.drop 1) else t
  match pySplit t2 "e" with
  | [m] => (pyMant? m).map (fun p => ratOf neg p.1 p.2 0)
  | [m, ex] =>
      match pyMant? m, pyExp? ex with
      | some p, some e => some (ratOf neg p.1 p.2 e)
      | _, _ => none
  | _ => none

/-- Python `d.get(k)` on an association list built with distinct keys. -/
def dget (d : List (String × String)) (k : String) : Option String :=
  (d.find? (fun p => p.1 == k)).map (fun p => p.2)

/-- Python truthiness of an `Optional[int]`: `None` and `0` are falsy. -/
def pyTruthyInt : Option ℤ → Bool
  | none => false
  | some n => decide (n ≠ 0)

/-- Python truthiness of an `Optional[str]`: `None` and `""` are falsy. -/
def pyTruthyStr : Option String → Bool
  | none => false
  | some s => !s.isEmpty

/-- Lines of a string, as Python `s.split('\n')`. -/
def pyLines (s : String) : List String := pySplit s "\n"

/-- Occurrence of `pat` as a contiguous segment of `s`: the decomposition
form of `pyContains`, used to trace substring checks through the string
concatenations of the source. -/
def chOcc (pat s : List Char) : Prop := ∃ pre post, s = pre ++ pat ++ post

/-- Join of character lists with a separator: the list-level form of
`pyJoin`, inverse of `chSplitGo`. -/
def chJoin (sep : List Char) : List (List Char) → List Char
  | [] => []
  | [x] => x
  | x :: y :: ys => x ++ sep ++ chJoin sep (y :: ys)

/-! ### Tables from `blast_markup.py` -/

/-- Roman-numeral list used by `number2roman` (`blast_markup.py`). -/
def romanList : List String :=
  ["I", "II", "III", "IV", "V", "VI", "VII", "VIII", "IX", "X", "XI",
   "XII", "XIII", "XIV", "XV", "XVI", "mt"]

/-- Source `number2roman` (`blast_markup.py` lines 13-22): chromosome number
(as a string, counting from 1) to Roman numeral, plus the 2-micron entry. -/
def number2roman : List (String × String) :=
  (romanList.enum.map (fun p => (toString (p.1 + 1), p.2))) ++
    [("2-micron", "2-micron")]

/-- Source `roman2number` (`blast_markup.py` lines 25-34): inverts
`number2roman`, with the key for number 17 replaced by the label Mito. -/
def roman2number : List (String × String) :=
  number2roman.map (fun p => (if p.1 = "17" then "Mito" else p.2, p.1))

/-! ### Hit Extractor (`blast_service.py`) -/

/-- Configured maximum number of hit records retained for the graph
(`blast_service.py` line 16). -/
def MAX_GRAPH_HITS : ℕ := 50

/-- Fixed p-value significance cutoff 0.05 (`blast_service.py` line 18). -/
def PVALUE_CUTOFF : ℚ := mkRat 5 100

/-- A Python float as handled by `parse_hits`: its exact rational value and
its textual form, modelling `str(value)`. -/
structure PyFloat where
  val : ℚ
  repr : String
deriving DecidableEq, Repr

/-- The Python float `0.0`, initial value of the `pvalue` accumulator. -/
def pyZero : PyFloat := ⟨0, "0.0"⟩

/-- Source `_pvalue_to_exp` (`blast_service.py` lines 189-196): exact zero
maps to the sentinel -500; otherwise, if `str(pvalue)` contains a dash the
result is 0 minus `int` of the piece after the first dash (`none` when that
piece is not an integer literal, modelling ValueError); otherwise the raw
value. -/
def pvalue_to_exp (p : PyFloat) : Option ℚ :=
  if p.val = 0 then some (-500)
  else
    match (pySplit p.repr "-").get? 1 with
    | some piece =>
        match pyInt? piece with
        | some n => some (0 - (n : ℚ))
        | none => none
    | none => some p.val

/-- Source `_get_id_desc` (`blast_service.py` lines 199-206). -/
def get_id_desc (line : String) : String × String :=
  let pieces := pySplit (pyStrip (pyReplace line ">" "")) " "
  let id_str := pieces.headD ""
  let desc := if pieces.length > 1 then pieces.getD 1 "" else ""
  let desc :=
    if pieces.length > 2 then desc ++ " " ++ pyReplace (pieces.getD 2 "") "," ""
    else desc
  (id_str, desc)

/-- Source `_get_coords` (`blast_service.py` lines 209-216): order-normalized
coordinates and length; zeros when either endpoint is absent. -/
def get_coords : Option ℤ → Option ℤ → ℤ × ℤ × ℤ
  | some a, some b =>
      if a > b then (b, a, a - b + 1) else (a, b, b - a + 1)
  | _, _ => (0, 0, 0)

/-- Source `_set_name` (`blast_service.py` lines 219-221), with `str(pvalue)`
modelled by the stored textual form. -/
def set_name (id_str : String) (p : PyFloat) (score desc : String) : String :=
  id_str ++ ": p=" ++ p.repr ++ " s=" ++ score ++ " " ++ desc

/-- Source `_set_strand` (`blast_service.py` lines 224-229). -/
def set_strand (line : String) : Option ℤ :=
  let pieces := pySplit (pyStrip (pyReplace line "Sbjct " "")) " "
  match pyInt? (pieces.headD ""), pyInt? (pieces.getLastD "") with
  | some a, some b => some (if a > b then -1 else 1)
  | _, _ => none

/-- One structured hit record as appended by `parse_hits`. The Python dict
carries the p-value only inside `name` (via `_set_name`) and `exp`; the
record here additionally keeps the `PyFloat` itself as the `pvalue` field so
that properties of the retained p-values can be stated. -/
structure HitRecord where
  query_length : Option ℤ
  name : String
  value : ℤ
  start : ℤ
  end_ : ℤ
  strand : Option ℤ
  exp : ℚ
  same_row : ℕ
  pvalue : PyFloat
deriving DecidableEq, Repr

/-- Scan state of `parse_hits` (`blast_service.py` lines 234-246). -/
structure ParseState where
  records : List HitRecord
  total_hits : ℕ
  show_hits : ℕ
  start : Option ℤ
  end_ : Option ℤ
  id_str : Option String
  query_length : Option ℤ
  strand : Option ℤ
  same_row : ℕ
  pvalue : PyFloat
  score : String
  desc : String
deriving DecidableEq, Repr

/-- Initial scan state of `parse_hits`. -/
def initParseState : ParseState :=
  { records := [], total_hits := 0, show_hits := 0, start := none,
    end_ := none, id_str := none, query_length := none, strand := none,
    same_row := 0, pvalue := pyZero, score := "", desc := "" }

/-- The record built from the current accumulators when an alignment is
finalized (`blast_service.py` lines 259-268 and the two other copies). -/
def mkHitRecord (s : ParseState) (i : String) (ex : ℚ) : HitRecord :=
  let c := get_coords s.start s.end_
  { query_length := s.query_length,
    name := set_name i s.pvalue s.score s.desc,
    value := c.2.2, start := c.1, end_ := c.2.1, strand := s.strand,
    exp := ex, same_row := s.same_row, pvalue := s.pvalue }

/-- Query-length pre-update of the scan (`blast_service.py` lines 250-251). -/
def stepLength (s : ParseState) (line : String) : Option ParseState :=
  if pyStartsWith line "Length=" ∧ s.query_length = none then
    match pyInt? (pyReplace (pyStrip line) "Length=" "") with
    | none => none
    | some v => some { s with query_length := some v }
  else some s

/-- Finalization of a pending candidate at a record marker
(`blast_service.py` lines 254-276): a truthy candidate is retained only
under the cutoff and the shown-count bound, and only retention resets the
per-alignment accumulators. -/
def markerFinalize (s : ParseState) : Option ParseState :=
  if pyTruthyStr s.id_str && pyTruthyInt s.start && pyTruthyInt s.end_ then
    match pvalue_to_exp s.pvalue with
    | none => none
    | some ex =>
        if s.pvalue.val ≤ PVALUE_CUTOFF ∧ s.show_hits < MAX_GRAPH_HITS then
          match s.id_str with
          | none => none
          | some i =>
              some { s with
                show_hits := s.show_hits + 1,
                records := s.records ++ [mkHitRecord s i ex],
                start := none, end_ := none, id_str := none, strand := none,
                same_row := 0, pvalue := pyZero, score := "", desc := "" }
        else some s
  else some s

/-- Record-marker branch of the scan (`blast_service.py` lines 252-277): the
total count always increments, the pending candidate is finalized, and the
identifier and description are re-read from the marker line. -/
def stepMarker (s : ParseState) (line : String) : Option ParseState :=
  match markerFinalize { s with total_hits := s.total_hits + 1 } with
  | none => none
  | some s2 =>
      some { s2 with id_str := some (get_id_desc line).1,
                     desc := (get_id_desc line).2 }

/-- Finalization of a pending alignment at a further score line of the same
record (`blast_service.py` lines 279-296): the candidate is appended without
any shown-count bound or count increment (`none` models the TypeError of
`_set_name` on a `None` identifier), and the coordinate accumulators are
cleared. -/
def scoreFinalize (s : ParseState) : Option ParseState :=
  if pyTruthyInt s.start && pyTruthyInt s.end_ then
    match pvalue_to_exp s.pvalue with
    | none => none
    | some ex =>
        match
          (if s.pvalue.val ≤ PVALUE_CUTOFF then
            match s.id_str with
            | none => none
            | some i =>
                some { s with records := s.records ++ [mkHitRecord s i ex],
                              same_row := 1 }
          else some s) with
        | none => none
        | some s2 => some { s2 with start := none, end_ := none, strand := none }
  else some s

/-- Score-line branch of the scan (`blast_service.py` lines 278-298): the
pending alignment is finalized, then the new score and p-value are parsed
from the line. -/
def stepScore (s : ParseState) (line : String) : Option ParseState :=
  match scoreFinalize s with
  | none => none
  | some s3 =>
      match (pySplit line "Score = ").get? 1 with
      | none => none
      | some sc1 =>
          match (pySplit line "Expect = ").get? 1 with
          | none => none
          | some p1 =>
              match pyFloat? (pyReplace ((pySplit p1 " ").headD "") "," "") with
              | none => none
              | some pv =>
                  some { s3 with score := (pySplit sc1 " ").headD "",
                                 pvalue := ⟨pv, pyReplace ((pySplit p1 " ").headD "") "," ""⟩ }

/-- Query-coordinate branch of the scan (`blast_service.py` lines 299-303). -/
def stepQuery (s : ParseState) (line : String) : Option ParseState :=
  let pieces := pySplit (pyStrip (pyReplace line "Query " "")) " "
  match
    (if s.start = none then
      match pyInt? (pieces.headD "") with
      | none => none
      | some v => some { s with start := some v }
    else some s) with
  | none => none
  | some s1 =>
      match pyInt? (pieces.getLastD "") with
      | none => none
      | some e => some { s1 with end_ := some e }

/-- Subject-coordinate branch of the scan (`blast_service.py` lines 304-305). -/
def stepSbjct (s : ParseState) (line : String) : Option ParseState :=
  match set_strand line with
  | none => none
  | some v => some { s with strand := some v }

/-- One line of the `parse_hits` scan: the query-length pre-update followed
by the marker / score / query / subject branch chain. -/
def parseStep (s : ParseState) (line : String) : Option ParseState :=
  match stepLength s line with
  | none => none
  | some s1 =>
      if pyStartsWith line ">" then stepMarker s1 line
      else if pyContains "Score = " line then stepScore s1 line
      else if pyStartsWith line "Query " then stepQuery s1 line
      else if pyStartsWith line "Sbjct " ∧ s1.strand = none then stepSbjct s1 line
      else some s1

/-- The `parse_hits` scan over a list of report lines. -/
def parseRun : ParseState → List String → Option ParseState
  | s, [] => some s
  | s, l :: ls =>
      match parseStep s l with
      | none => none
      | some s2 => parseRun s2 ls

/-- End-of-input finalization of `parse_hits` (`blast_service.py` lines
307-321). -/
def parseFinal (s : ParseState) : Option ParseState :=
  if pyTruthyStr s.id_str && pyTruthyInt s.start && pyTruthyInt s.end_ then
    match pvalue_to_exp s.pvalue with
    | none => none
    | some ex =>
        if s.pvalue.val ≤ PVALUE_CUTOFF ∧ s.show_hits < MAX_GRAPH_HITS then
          match s.id_str with
          | none => none
          | some i =>
              some { s with show_hits := s.show_hits + 1,
                            records := s.records ++ [mkHitRecord s i ex] }
        else some s
  else some s

/-- Source `parse_hits` (`blast_service.py` lines 232-323) over the report's
lines: total hit count, shown hit count, and the retained hit records. -/
def parse_hits (lines : List String) : Option (ℕ × ℕ × List HitRecord) :=
  match parseRun initParseState lines with
  | none => none
  | some s =>
      match parseFinal s with
      | none => none
      | some s2 => some (s2.total_hits, s2.show_hits, s2.records)

/-! ### Report Annotator (`blast_markup.py`) -/

/-- Python `sep.join(xs)`. -/
def pyJoin (sep : String) : List String → String
  | [] => ""
  | x :: xs => xs.foldl (fun a b => a ++ sep ++ b) x

/-- Number of lines of a string, in the Python sense of `s.split('\n')`. -/
def numLines (s : String) : ℕ := (pyLines s).length

/-- URL constants of `blast_markup.py` (lines 5-10). -/
def ROOT_URL : String := "https://www.yeastgenome.org/"

/-- Locus-page URL prefix. -/
def LOCUS : String := ROOT_URL ++ "locus/"

/-- Sequence-retrieval URL prefix keyed by chromosome. -/
def SEQ : String := ROOT_URL ++ "seqTools?chr="

/-- Sequence-retrieval URL prefix keyed by sequence name. -/
def SEQAN : String := ROOT_URL ++ "seqTools?seqname="

/-- Genome-browser URL prefix. -/
def GBROWSE : String := "https://jbrowse.yeastgenome.org/?loc="

/-- Nucleotide-record viewer URL prefix. -/
def NCBI_URL : String := "https://www.ncbi.nlm.nih.gov/nuccore/"

/-- Source `record_line` (`blast_markup.py` lines 49-54): rewrites a
pipe-delimited record line into an NCBI hyperlink; `none` models the
IndexError when the line has no pipe. -/
def record_line (line : String) : Option String :=
  let pieces := pySplit line "|"
  match pieces.get? 1 with
  | none => none
  | some ncbi_id =>
      some ("<a href=" ++ qc ++ NCBI_URL ++ ncbi_id ++ qc ++ " target=" ++ qc ++
        "_new" ++ qc ++ ">" ++ pieces.headD "" ++ "|" ++ ncbi_id ++ "</a>|" ++
        pyJoin "|" (pieces.drop 2))

/-- Source `link_out` (`blast_markup.py` lines 101-123): the
sequence-retrieval link uses the chromosome number and the raw coordinate
strings; the genome-browser link normalizes the pair and pads it by 5000
(clamped below at 1).  `none` models the TypeError of concatenating a `None`
chromosome number and the ValueError of `int` on a non-numeric coordinate. -/
def link_out (chr_name : String) (chrnum : Option String) (beg end_ : String) :
    Option String :=
  match chrnum with
  | none => none
  | some cn =>
      let gsr := "<a href=" ++ qc ++ SEQ ++ cn ++ "&start=" ++ beg ++ "&end=" ++
        end_ ++ "&submit2=Submit+Form" ++ qc ++ " target=" ++ qc ++ "_new" ++
        qc ++ ">Retrieve Sequence</a>"
      match pyInt? beg, pyInt? end_ with
      | some b0, some e0 =>
          let b := if b0 > e0 then e0 else b0
          let e := if b0 > e0 then b0 else e0
          let start := b - 5000
          let start := if start < 1 then 1 else start
          let stop := e + 5000
          let jb := "<a href=" ++ qc ++ GBROWSE ++ "chr" ++ chr_name ++ "%3A" ++
            toString start ++ ".." ++ toString stop ++
            "&tracks=DNA%2CAll%20Annotated%20Sequence%20Features&highlight=chr" ++
            chr_name ++ "%3A" ++ toString b ++ ".." ++ toString e ++ qc ++
            "  target=" ++ qc ++ "_new" ++ qc ++ ">Genome Browser</a>"
          some ("  [ " ++ gsr ++ " / " ++ jb ++ " ]")
      | _, _ => none

/-- One dash-separated coordinate pair of the feature-header clause
(`blast_markup.py` lines 68-81): swap if reversed, then extend the running
minimum/maximum (zero meaning unset). -/
def coordPairStep (p : ℤ × ℤ) (cp : String) : Option (ℤ × ℤ) :=
  if !(pyContains "-" cp) then some p
  else
    match pySplit cp "-" with
    | [x, y] =>
        match pyInt? x, pyInt? y with
        | some a0, some b0 =>
            let a := if a0 > b0 then b0 else a0
            let b := if a0 > b0 then a0 else b0
            let beg := if p.1 = 0 then a else if p.1 > a then a else p.1
            let end_ := if p.2 = 0 then b else if p.2 < b then b else p.2
            some (beg, end_)
        | _, _ => none
    | _ => none

/-- Source `link_out_for_feature` (`blast_markup.py` lines 57-98): parses the
`, Chr <name> from <coords>` clause of a feature header and builds the
retrieve-sequence / genome-browser / locus-page link block; `none` models
IndexError on a missing clause and ValueError on malformed coordinates. -/
def link_out_for_feature (line : String) : Option String :=
  let piece := pySplit line ", Chr "
  match piece.get? 1 with
  | none => none
  | some p1 =>
      let name := pyReplace ((pySplit (piece.headD "") " ").headD "") ">" ""
      let chr_coords := pySplit p1 " from "
      match chr_coords.get? 1 with
      | none => none
      | some cc1 =>
          let chr_name := chr_coords.headD ""
          let coords := (pySplit cc1 " ").headD ""
          let coord_list := pySplit coords ","
          match coord_list.foldlM coordPairStep ((0 : ℤ), (0 : ℤ)) with
          | none => none
          | some be =>
              let gsr := "<a href=" ++ qc ++ SEQAN ++ name ++ qc ++ " target=" ++
                qc ++ "_new" ++ qc ++ ">Retrieve Sequence</a>"
              let start := be.1 - 5000
              let start := if start < 1 then 1 else start
              let stop := be.2 + 5000
              let jb := "<a href=" ++ qc ++ GBROWSE ++ "chr" ++ chr_name ++
                "%3A" ++ toString start ++ ".." ++ toString stop ++
                "&tracks=DNA%2CAll%20Annotated%20Sequence%20Features&highlight=chr" ++
                chr_name ++ "%3A" ++ toString be.1 ++ ".." ++ toString be.2 ++
                qc ++ "  target=" ++ qc ++ "_new" ++ qc ++ ">Genome Browser</a>"
              let lsp := "<a href=" ++ qc ++ LOCUS ++ name ++ qc ++ " target=" ++
                qc ++ "_blastout" ++ qc ++ ">SGD Locus page</a> ]</b>"
              some ("  <b>[ " ++ gsr ++ " / " ++ jb ++ " / " ++ lsp ++ " ]</b>")

/-- Scan state of `markup_chromosomal_coord` (`blast_markup.py` lines
128-140): the accumulated output and the per-record buffers, the chromosome
tag and resolved number (`none` models Python `None` from a failed lookup),
and the coordinate range strings. -/
structure ChromState where
  newoutput : String
  start_record : Bool
  record_before_score : String
  scoreline : String
  record_after_score : String
  chr_name : String
  chrnum : Option String
  beg : String
  end_ : String
  sub_hit : Bool
deriving DecidableEq, Repr

/-- Initial state of the chromosomal-coordinate scan. -/
def initChromState : ChromState :=
  { newoutput := "", start_record := false, record_before_score := "",
    scoreline := "", record_after_score := "", chr_name := "",
    chrnum := some "", beg := "", end_ := "", sub_hit := false }

/-- Digit scan of a subject-alignment line (`blast_markup.py` lines
180-188): the first all-digit field and the last all-digit field after it. -/
def scanDigits (pieces : List String) : String × String :=
  pieces.foldl
    (fun p item =>
      if pyIsDigit item then
        if p.1 = "" then (item, p.2) else (p.1, item)
      else p)
    ("", "")

/-- One line of the chromosomal-coordinate scan (`blast_markup.py` lines
142-191). -/
def chromStep (st : ChromState) (line : String) : Option ChromState :=
  let st := if pyStartsWith line ">" then { st with start_record := true } else st
  if st.start_record = false then
    if pyContains "ref|NC_" line || pyContains "gi|" line then
      match record_line line with
      | none => none
      | some nl => some { st with newoutput := st.newoutput ++ nl ++ "\n" }
    else some { st with newoutput := st.newoutput ++ line ++ "\n" }
  else if pyStartsWith line ">" then
    let flushed : Option ChromState :=
      if st.record_before_score ≠ "" then
        match link_out st.chr_name st.chrnum st.beg st.end_ with
        | none => none
        | some lnk =>
            let sl := st.scoreline ++ lnk ++ "\n"
            let no := st.newoutput ++ st.record_before_score ++ "\n" ++ sl ++
              "\n" ++ st.record_after_score ++ "\n"
            some { st with scoreline := sl, newoutput := no }
      else some st
    match flushed with
    | none => none
    | some st2 =>
        let st3 := { st2 with chr_name := "", chrnum := some "", beg := "",
                              end_ := "", sub_hit := false }
        match record_line line with
        | none => none
        | some nl =>
            some { st3 with record_before_score := nl ++ "\n",
                            record_after_score := "" }
  else if pyContains " Score = " line then
    some { st with scoreline := line }
  else if pyContains "[chromosome=" line then
    let cn := pyReplace ((pySplit line "[chromosome=").getLastD "") "]" ""
    some { st with
      record_before_score := st.record_before_score ++ line ++ "\n",
      chr_name := cn, chrnum := dget roman2number cn }
  else if st.scoreline = "" then
    some { st with record_before_score := st.record_before_score ++ line ++ "\n" }
  else
    let st := { st with record_after_score := st.record_after_score ++ line ++ "\n" }
    let st :=
      if st.beg ≠ "" ∧ st.end_ ≠ "" ∧ pyContains "Identities =" line then
        { st with sub_hit := true }
      else st
    if st.sub_hit then some st
    else if pyStartsWith line "Sbjct " then
      let te := scanDigits (pySplit line " ")
      let st := if st.beg = "" then { st with beg := te.1 } else st
      some { st with end_ := te.2 }
    else some st

/-- The chromosomal-coordinate scan over the report lines. -/
def chromRun : ChromState → List String → Option ChromState
  | st, [] => some st
  | st, l :: ls =>
      match chromStep st l with
      | none => none
      | some st2 => chromRun st2 ls

/-- End-of-input flush of the chromosomal-coordinate scan (`blast_markup.py`
lines 193-195). -/
def chromFinal (st : ChromState) : Option String :=
  if st.record_before_score ≠ "" then
    match link_out st.chr_name st.chrnum st.beg st.end_ with
    | none => none
    | some lnk =>
        some (st.newoutput ++ st.record_before_score ++ "\n" ++
          (st.scoreline ++ lnk ++ "\n") ++ "\n" ++ st.record_after_score ++ "\n")
  else some st.newoutput

/-- Source `markup_chromosomal_coord` (`blast_markup.py` lines 126-197). -/
def markup_chromosomal_coord (blast_output : String) : Option String :=
  match chromRun initChromState (pyLines blast_output) with
  | none => none
  | some st => chromFinal st

/-- Scan state of the pre-processing loop of `markup_output`
(`blast_markup.py` lines 204-209).  The accumulated output string is kept as
its list of lines: the source builds `blast_output + "\n" + line` from the
empty string, which is `pyJoin "\n" out` for `out` starting as `[""]`. -/
structure PrepState where
  out : List String
  end_ : Bool
  databases : String
  finish_db_line : Bool
  prev_line : String
  summary_end : Bool
deriving DecidableEq, Repr

/-- Initial state of the pre-processing loop. -/
def initPrepState : PrepState :=
  { out := [""], end_ := false, databases := "", finish_db_line := false,
    prev_line := "", summary_end := false }

/-- Body of the pre-processing loop that runs before the summary rewrite
(`blast_markup.py` lines 221-239): the dataset-path merging (which always
continues, returning no line), the database-summary merge, the query-echo
drop and the length relabel.  Returns the updated state and the line to
carry on with, `none` when the iteration continues without emitting. -/
def prepBody (st : PrepState) (line0 : String) : PrepState × Option String :=
  if st.end_ = false then
    if pyContains "/data/blast/" line0 then
      if st.finish_db_line then (st, none)
      else
        let l := pyReplace (pyReplace (pyStrip line0) "/data/blast/fungi/" "")
          "/data/blast/" ""
        if st.databases = "" then ({ st with databases := l }, none)
        else
          let dbs := st.databases ++ " " ++ l
          let dbs := if pyEndsWith dbs ";" then dbs ++ " etc" else dbs
          ({ st with databases := dbs, finish_db_line := true }, none)
    else
      let line :=
        if pyContains " sequences; " line0 && pyContains " total letters" line0
        then pyStrip st.databases ++ "\n" ++ line0 else line0
      if pyContains "Query=" line then (st, none)
      else
        let line := if pyContains "Length=" line then "Query " ++ line else line
        (st, some line)
  else (st, some line0)

/-- The same-page anchor link wrapped around the last field of a summary
line (`blast_markup.py` line 246). -/
def anchorWrap (name last : String) : String :=
  "<a href=" ++ qc ++ "#" ++ name ++ qc ++ ">" ++ last ++ "</a>"

/-- Summary-table rewrite of the pre-processing loop (`blast_markup.py`
lines 240-247): in the post-summary-header, pre-record region, a line of
more than 3 fields gets its last field wrapped in a same-page anchor link
keyed by the identifier. -/
def prepSummary (st : PrepState) (line : String) : String :=
  if st.end_ && !st.summary_end &&
      !(pyContains "Sequences producing significant alignment" line) then
    let items := pySplit (pyStrip line) " "
    if items.length > 3 then
      let name := items.headD ""
      let name := if pyContains "|" name then (pySplit name "|").getD 1 "" else name
      pyJoin " " (items.dropLast ++ [anchorWrap name (items.getLastD "")])
    else line
  else line

/-- Tail of a pre-processing iteration, after the state flags are updated
(`blast_markup.py` lines 221-259): the loop body, the summary rewrite, the
FASTA-artifact drop and the emission of the line (with its record anchor
when past the summary). -/
def prepTail (st : PrepState) (line0 : String) : PrepState :=
  match prepBody st line0 with
  | (st, none) => st
  | (st, some line1) =>
      let line := prepSummary st line1
      if pyContains ".fsa" line && !(pyContains "Database:" line) then st
      else
        let st :=
          if st.summary_end && pyStartsWith line ">" then
            let name := (pySplit (pyStrip (pyReplace line ">" "")) " ").headD ""
            let name :=
              if pyContains "|" name then (pySplit name "|").getD 1 "" else name
            { st with out := st.out ++ ["<a name=" ++ qc ++ name ++ qc ++ ">", ""] }
          else st
        { st with out := st.out ++ pyLines line }

/-- One line of the pre-processing loop of `markup_output`
(`blast_markup.py` lines 211-259). -/
def prepStep (st : PrepState) (line0 : String) : PrepState :=
  if pyStartsWith line0 "BLAST" then st
  else if st.prev_line = "" ∧ line0 = "" then st
  else
    let st := { st with prev_line := line0 }
    let st :=
      if pyContains "Sequences producing significant alignment" line0 then
        { st with end_ := true }
      else st
    let st := if pyStartsWith line0 ">" then { st with summary_end := true } else st
    prepTail st line0

/-- The lines of the pre-processed report: the pre-processing loop of
`markup_output` applied to the report lines. -/
def markup_preprocess_lines (lines : List String) : List String :=
  (lines.foldl prepStep initPrepState).out

/-- The pre-processed report text, before either annotation branch of
`markup_output` is applied. -/
def markup_preprocess (raw : String) : String :=
  pyJoin "\n" (markup_preprocess_lines (pyLines raw))

/-- One line of the feature-annotation pass of `markup_output`
(`blast_markup.py` lines 268-281); the accumulator is the rebuilt line list
and the pending locator-link block. -/
def featStep (acc : List String × String) (line : String) :
    Option (List String × String) :=
  if pyStartsWith line ">" && pyContains "SGDID:" line then
    match link_out_for_feature line with
    | none => none
    | some lnk => some (acc.1 ++ ["<hr><p>", line], lnk)
  else if pyStartsWith line ">gi" || pyStartsWith line "gi|" then
    match record_line line with
    | none => none
    | some nl => some (acc.1 ++ [nl], acc.2)
  else if pyStartsWith line "Length=" then
    some (acc.1 ++ ["<br>" ++ acc.2, "<br>" ++ line], "")
  else some (acc.1 ++ [line], acc.2)

/-- Feature-annotation branch of `markup_output` (`blast_markup.py` lines
264-292), including the ORF-classification recoloring. -/
def feature_pass (pre : String) : Option String :=
  match (pyLines pre).foldlM featStep ([], "") with
  | none => none
  | some acc =>
      let j := pyJoin "\n" acc.1
      let j := pyReplace j " Verified ORF"
        (" <font color=" ++ qc ++ "green" ++ qc ++ ">Verified ORF</font>")
      let j := pyReplace j " Uncharacterized ORF"
        (" <font color=" ++ qc ++ "green" ++ qc ++ ">Uncharacterized ORF</font>")
      let j := pyReplace j " Dubious ORF"
        ("<br> <font color=" ++ qc ++ "red" ++ qc ++ ">** Dubious ORF **</font>")
      some j

/-- Source `markup_output` (`blast_markup.py` lines 200-294): the
pre-processing pass, followed by the chromosomal-coordinate branch for
Sc_nuclear / Sc_mito datasets without a 2-micron tag, the feature branch for
other datasets not marked NotFeature, and the identity otherwise. -/
def markup_output (dataset blast_output : String) : Option String :=
  let pre := markup_preprocess blast_output
  if (pyContains "Sc_nuclear" dataset || pyContains "Sc_mito" dataset) &&
      !(pyContains "[chromosome=2-micron]" pre) then
    markup_chromosomal_coord pre
  else if !(pyContains "NotFeature" dataset) then
    feature_pass pre
  else some pre

/-- A line matched by none of the pattern drop rules of the pre-processing
loop of `markup_output`: not a BLAST banner line, not a dataset-path line,
not a query-echo line, and not a FASTA artifact (any `.fsa` occurrence is
accompanied by `Database:`). -/
def dropFree (l : String) : Prop :=
  pyStartsWith l "BLAST" = false ∧
  pyContains "/data/blast/" l = false ∧
  pyContains "Query=" l = false ∧
  (pyContains ".fsa" l = true → pyContains "Database:" l = true)

instance (l : String) : Decidable (dropFree l) := by
  unfold dropFree
  infer_instance

/-- No line of the list is dropped by the blank-collapse rule of the
pre-processing loop (`blast_markup.py` lines 214-215), starting from the
given previous-line value: no blank line directly follows a blank (or
leads the report). -/
def noCollapse : String → List String → Bool
  | _, [] => true
  | prev, l :: rest => !(prev == "" && l == "") && noCollapse l rest

/-- Concatenation of lines, each newline-terminated: the exact form in which
`markup_chromosomal_coord` accumulates pass-through lines. -/
def joinNL : List String → String
  | [] => ""
  | l :: ls => l ++ "\n" ++ joinNL ls

/-! ### Concrete claim inputs -/

/-- Report lines of the C2 counterexample: one record marker followed by 52
score blocks, each with its own query-coordinate line. -/
def C2lines : List String :=
  ">A" :: (List.replicate 52 ["Score = 1 (1), Expect = 0.001", "Query 1 2"]).flatten

/-- A three-line report with a single retained hit. -/
def W2lines : List String :=
  [">C", "Score = 3 (3), Expect = 0.001", "Query 1 2"]

/-- The single record extracted from `W2lines`. -/
def W2rec : HitRecord :=
  { query_length := none, name := "C: p=0.001 s=3 ", value := 2, start := 1,
    end_ := 2, strand := none, exp := mkRat 1 1000, same_row := 0,
    pvalue := ⟨mkRat 1 1000, "0.001"⟩ }

/-- A three-line report with a single retained hit. -/
def W3lines : List String :=
  [">A", "Score = 1 (1), Expect = 0.001", "Query 1 2"]

/-- A three-line report with a single retained hit and a description. -/
def W4lines : List String :=
  [">B x", "Score = 2 (2), Expect = 0.01", "Query 3 7"]

/-- The single record extracted from `W4lines`. -/
def W4rec : HitRecord :=
  { query_length := none, name := "B: p=0.01 s=2 x", value := 5, start := 3,
    end_ := 7, strand := none, exp := mkRat 1 100, same_row := 0,
    pvalue := ⟨mkRat 1 100, "0.01"⟩ }

/-- A scan state holding a truthy candidate whose p-value (1.0) exceeds the
cutoff, about to hit a record marker. -/
def W10state : ParseState :=
  { records := [], total_hits := 3, show_hits := 2, start := some 1,
    end_ := some 2, id_str := some "X", query_length := some 9,
    strand := some 1, same_row := 1, pvalue := ⟨1, "1.0"⟩, score := "7",
    desc := "old" }

/-- The state after `W10state` processes the marker line `>Y d`. -/
def W10out : ParseState :=
  { W10state with total_hits := 4, id_str := some "Y", desc := "d" }

/-- Chromosomal-branch report whose one record carries the subject
coordinate pairs (100, 200) and (250, 150). -/
def C1input : String :=
  ">a|b|c\n[chromosome=IV]\nx Score = 5 (1), Expect = 1\nSbjct 100 AAA 200\nSbjct 250 AAA 150"

/-- Chromosomal-branch report whose one record carries a chromosome tag
matching no entry of the chromosome table. -/
def C5input : String :=
  ">a|b|c\n[chromosome=QQ]\nx Score = 5 (1), Expect = 1\nSbjct 100 AAA 200"

/-- A report whose first two lines are version banners. -/
def C6input : String := "BLASTP\nBLASTP\nhello"

/-- A drop-free report exercising the kept-line kinds: a blank line, a
length relabel, a database-summary merge, the summary header, and a
post-summary line of more than 3 fields carrying `.fsa` together with
`Database:`, which the anchor rewrite transforms. -/
def W6raw : String :=
  "aaa\n\nLength=5\nx sequences; 9 total letters\n" ++
  "Sequences producing significant alignment\naa.fsa bb cc Database: dd"

/-- A zero-record-marker report containing an ORF classification keyword. -/
def C8input : String := "x Verified ORF"

/-! ### Helper lemmas -/

lemma stepLength_shape (s : ParseState) (l : String) (s' : ParseState)
    (h : stepLength s l = some s') :
    s' = { s with query_length := s'.query_length } := by
  unfold stepLength at h
  split at h
  · cases h2 : pyInt? (pyReplace (pyStrip l) "Length=" "") with
    | none => rw [h2] at h; exact absurd h (by simp)
    | some v => rw [h2] at h; cases Option.some.inj h; rfl
  · cases Option.some.inj h; rfl

lemma markerFinalize_shape (s s' : ParseState) (h : markerFinalize s = some s') :
    (∃ r, r.pvalue = s.pvalue ∧ s.pvalue.val ≤ PVALUE_CUTOFF ∧
      s.show_hits < MAX_GRAPH_HITS ∧ pyTruthyStr s.id_str = true ∧
      s' = { s with
             show_hits := s.show_hits + 1,
             records := s.records ++ [r],
             start := none, end_ := none, id_str := none, strand := none,
             same_row := 0, pvalue := pyZero, score := "", desc := "" }) ∨
    s' = s := by
  unfold markerFinalize at h
  split at h
  · rename_i hcond
    split at h
    · exact absurd h (by simp)
    · rename_i ex hex
      split at h
      · rename_i hpv
        split at h
        · exact absurd h (by simp)
        · rename_i i hi
          cases Option.some.inj h
          simp only [Bool.and_eq_true] at hcond
          exact Or.inl ⟨mkHitRecord s i ex, rfl, hpv.1, hpv.2, hcond.1.1, rfl⟩
      · cases Option.some.inj h; exact Or.inr rfl
  · cases Option.some.inj h; exact Or.inr rfl

lemma scoreFinalize_shape (s s' : ParseState) (h : scoreFinalize s = some s') :
    (∃ r i, r.pvalue = s.pvalue ∧ s.pvalue.val ≤ PVALUE_CUTOFF ∧
      s.id_str = some i ∧
      s' = { s with
             records := s.records ++ [r], same_row := 1,
             start := none, end_ := none, strand := none }) ∨
    (s' = { s with start := none, end_ := none, strand := none } ∨ s' = s) := by
  unfold scoreFinalize at h
  split at h
  · split at h
    · exact absurd h (by simp)
    · rename_i ex hex
      split at h
      · exact absurd h (by simp)
      · rename_i s2 h2
        cases Option.some.inj h
        split at h2
        · rename_i hpv
          cases h3 : s.id_str with
          | none => rw [h3] at h2; exact absurd h2 (by simp)
          | some i =>
              rw [h3] at h2
              cases Option.some.inj h2
              exact Or.inl ⟨mkHitRecord s i ex, i, rfl, hpv, rfl, rfl⟩
        · cases Option.some.inj h2
          exact Or.inr (Or.inl rfl)
  · cases Option.some.inj h; exact Or.inr (Or.inr rfl)

lemma stepMarker_shape (s : ParseState) (l : String) (s' : ParseState)
    (h : stepMarker s l = some s') :
    ∃ s2, markerFinalize { s with total_hits := s.total_hits + 1 } = some s2 ∧
      s' = { s2 with id_str := some (get_id_desc l).1,
                     desc := (get_id_desc l).2 } := by
  unfold stepMarker at h
  cases h2 : markerFinalize { s with total_hits := s.total_hits + 1 } with
  | none => rw [h2] at h; exact absurd h (by simp)
  | some s2 =>
      rw [h2] at h
      cases Option.some.inj h
      exact ⟨s2, rfl, rfl⟩

set_option maxHeartbeats 1600000 in
lemma stepScore_shape (s : ParseState) (l : String) (s' : ParseState)
    (h : stepScore s l = some s') :
    ∃ s3 sc pv, scoreFinalize s = some s3 ∧
      s' = { s3 with score := sc, pvalue := pv } := by
  unfold stepScore at h
  cases h2 : scoreFinalize s with
  | none => rw [h2] at h; exact absurd h (by simp)
  | some s3 =>
      rw [h2] at h
      dsimp only at h
      split at h
      · exact absurd h (by simp)
      · split at h
        · exact absurd h (by simp)
        · split at h
          · exact absurd h (by simp)
          · exact ⟨s3, _, _, rfl, (Option.some.inj h).symm⟩

lemma stepQuery_shape (s : ParseState) (l : String) (s' : ParseState)
    (h : stepQuery s l = some s') :
    s' = { s with start := s'.start, end_ := s'.end_ } := by
  simp only [stepQuery] at h
  by_cases hs : s.start = none
  · rw [if_pos hs] at h
    cases h1 : pyInt? ((pySplit (pyStrip (pyReplace l "Query " "")) " ").headD "") with
    | none => rw [h1] at h; exact absurd h (by simp)
    | some v =>
        rw [h1] at h
        cases h2 : pyInt? ((pySplit (pyStrip (pyReplace l "Query " "")) " ").getLastD "") with
        | none => rw [h2] at h; exact absurd h (by simp)
        | some e => rw [h2] at h; cases Option.some.inj h; rfl
  · rw [if_neg hs] at h
    cases h2 : pyInt? ((pySplit (pyStrip (pyReplace l "Query " "")) " ").getLastD "") with
    | none => rw [h2] at h; exact absurd h (by simp)
    | some e => rw [h2] at h; cases Option.some.inj h; rfl

lemma stepSbjct_shape (s : ParseState) (l : String) (s' : ParseState)
    (h : stepSbjct s l = some s') :
    s' = { s with strand := s'.strand } := by
  unfold stepSbjct at h
  split at h
  · exact absurd h (by simp)
  · cases Option.some.inj h; rfl

lemma parseFinal_facts (s s' : ParseState) (h : parseFinal s = some s') :
    (∃ r, r.pvalue = s.pvalue ∧ s.pvalue.val ≤ PVALUE_CUTOFF ∧
      s.show_hits < MAX_GRAPH_HITS ∧ pyTruthyStr s.id_str = true ∧
      s'.records = s.records ++ [r] ∧ s'.show_hits = s.show_hits + 1 ∧
      s'.total_hits = s.total_hits) ∨ s' = s := by
  unfold parseFinal at h
  split at h
  · rename_i hcond
    split at h
    · exact absurd h (by simp)
    · rename_i ex hex
      split at h
      · rename_i hpv
        split at h
        · exact absurd h (by simp)
        · rename_i i hi
          cases Option.some.inj h
          simp only [Bool.and_eq_true] at hcond
          exact Or.inl ⟨mkHitRecord s i ex, rfl, hpv.1, hpv.2, hcond.1.1, rfl, rfl, rfl⟩
      · cases Option.some.inj h; exact Or.inr rfl
  · cases Option.some.inj h; exact Or.inr rfl

lemma parseStep_facts (s : ParseState) (l : String) (s' : ParseState)
    (h : parseStep s l = some s') :
    (pyStartsWith l ">" = true ∧ ∃ r : HitRecord, r.pvalue = s.pvalue ∧
        s.pvalue.val ≤ PVALUE_CUTOFF ∧ s.show_hits < MAX_GRAPH_HITS ∧
        pyTruthyStr s.id_str = true ∧ s'.records = s.records ++ [r] ∧
        s'.show_hits = s.show_hits + 1 ∧ s'.total_hits = s.total_hits + 1) ∨
    (pyStartsWith l ">" = true ∧ s'.records = s.records ∧
        s'.show_hits = s.show_hits ∧ s'.total_hits = s.total_hits + 1) ∨
    (∃ r i, r.pvalue = s.pvalue ∧ s.pvalue.val ≤ PVALUE_CUTOFF ∧
        s.id_str = some i ∧ s'.records = s.records ++ [r] ∧
        s'.show_hits = s.show_hits ∧ s'.total_hits = s.total_hits ∧
        s'.id_str = s.id_str) ∨
    (s'.records = s.records ∧ s'.show_hits = s.show_hits ∧
        s'.total_hits = s.total_hits ∧ s'.id_str = s.id_str) := by
  unfold parseStep at h
  cases hL : stepLength s l with
  | none => rw [hL] at h; exact absurd h (by simp)
  | some s1 =>
    rw [hL] at h
    have hs1 := stepLength_shape s l s1 hL
    have h1r : s1.records = s.records := by rw [hs1]
    have h1sh : s1.show_hits = s.show_hits := by rw [hs1]
    have h1t : s1.total_hits = s.total_hits := by rw [hs1]
    have h1i : s1.id_str = s.id_str := by rw [hs1]
    have h1p : s1.pvalue = s.pvalue := by rw [hs1]
    dsimp only at h
    by_cases hgt : pyStartsWith l ">" = true
    · rw [if_pos hgt] at h
      obtain ⟨s2, hfin, hs'⟩ := stepMarker_shape s1 l s' h
      rcases markerFinalize_shape _ _ hfin with ⟨r, hrp, hpv, hmax, hid, hs2⟩ | hs2
      · left
        refine ⟨hgt, r, ?_, ?_, ?_, ?_, ?_, ?_, ?_⟩
        · rw [← h1p]; exact hrp
        · rw [← h1p]; exact hpv
        · rw [← h1sh]; exact hmax
        · rw [← h1i]; exact hid
        · have hx : s'.records = s1.records ++ [r] := by rw [hs', hs2]
          rw [hx, h1r]
        · have hx : s'.show_hits = s1.show_hits + 1 := by rw [hs', hs2]
          rw [hx, h1sh]
        · have hx : s'.total_hits = s1.total_hits + 1 := by rw [hs', hs2]
          rw [hx, h1t]
      · right; left
        refine ⟨hgt, ?_, ?_, ?_⟩
        · have hx : s'.records = s1.records := by rw [hs', hs2]
          rw [hx, h1r]
        · have hx : s'.show_hits = s1.show_hits := by rw [hs', hs2]
          rw [hx, h1sh]
        · have hx : s'.total_hits = s1.total_hits + 1 := by rw [hs', hs2]
          rw [hx, h1t]
    · rw [if_neg hgt] at h
      by_cases hsc : pyContains "Score = " l = true
      · rw [if_pos hsc] at h
        obtain ⟨s3, sc, pv, hfin, hs'⟩ := stepScore_shape s1 l s' h
        rcases scoreFinalize_shape _ _ hfin with
          ⟨r, i, hrp, hpv, hid, hs3⟩ | hs3 | hs3
        · right; right; left
          refine ⟨r, i, ?_, ?_, ?_, ?_, ?_, ?_, ?_⟩
          · rw [← h1p]; exact hrp
          · rw [← h1p]; exact hpv
          · rw [← h1i]; exact hid
          · have hx : s'.records = s1.records ++ [r] := by rw [hs', hs3]
            rw [hx, h1r]
          · have hx : s'.show_hits = s1.show_hits := by rw [hs', hs3]
            rw [hx, h1sh]
          · have hx : s'.total_hits = s1.total_hits := by rw [hs', hs3]
            rw [hx, h1t]
          · have hx : s'.id_str = s1.id_str := by rw [hs', hs3]
            rw [hx, h1i]
        · right; right; right
          refine ⟨?_, ?_, ?_, ?_⟩
          · have hx : s'.records = s1.records := by rw [hs', hs3]
            rw [hx, h1r]
          · have hx : s'.show_hits = s1.show_hits := by rw [hs', hs3]
            rw [hx, h1sh]
          · have hx : s'.total_hits = s1.total_hits := by rw [hs', hs3]
            rw [hx, h1t]
          · have hx : s'.id_str = s1.id_str := by rw [hs', hs3]
            rw [hx, h1i]
        · right; right; right
          refine ⟨?_, ?_, ?_, ?_⟩
          · have hx : s'.records = s1.records := by rw [hs', hs3]
            rw [hx, h1r]
          · have hx : s'.show_hits = s1.show_hits := by rw [hs', hs3]
            rw [hx, h1sh]
          · have hx : s'.total_hits = s1.total_hits := by rw [hs', hs3]
            rw [hx, h1t]
          · have hx : s'.id_str = s1.id_str := by rw [hs', hs3]
            rw [hx, h1i]
      · rw [if_neg hsc] at h
        right; right; right
        by_cases hq : pyStartsWith l "Query " = true
        · rw [if_pos hq] at h
          have hx := stepQuery_shape s1 l s' h
          refine ⟨?_, ?_, ?_, ?_⟩
          · have : s'.records = s1.records := by rw [hx]
            rw [this, h1r]
          · have : s'.show_hits = s1.show_hits := by rw [hx]
            rw [this, h1sh]
          · have : s'.total_hits = s1.total_hits := by rw [hx]
            rw [this, h1t]
          · have : s'.id_str = s1.id_str := by rw [hx]
            rw [this, h1i]
        · rw [if_neg hq] at h
          by_cases hsb : pyStartsWith l "Sbjct " = true ∧ s1.strand = none
          · rw [if_pos hsb] at h
            have hx := stepSbjct_shape s1 l s' h
            refine ⟨?_, ?_, ?_, ?_⟩
            · have : s'.records = s1.records := by rw [hx]
              rw [this, h1r]
            · have : s'.show_hits = s1.show_hits := by rw [hx]
              rw [this, h1sh]
            · have : s'.total_hits = s1.total_hits := by rw [hx]
              rw [this, h1t]
            · have : s'.id_str = s1.id_str := by rw [hx]
              rw [this, h1i]
          · rw [if_neg hsb] at h
            cases Option.some.inj h
            exact ⟨h1r, h1sh, h1t, h1i⟩

lemma parseRun_inv (P : ParseState → Prop) (Q : String → Prop)
    (hstep : ∀ s l s', Q l → parseStep s l = some s' → P s → P s') :
    ∀ ls s s', (∀ l ∈ ls, Q l) → parseRun s ls = some s' → P s → P s' := by
  intro ls
  induction ls with
  | nil =>
      intro s s' _ h hp
      unfold parseRun at h
      cases Option.some.inj h
      exact hp
  | cons l ls ih =>
      intro s s' hQ h hp
      unfold parseRun at h
      cases h2 : parseStep s l with
      | none => rw [h2] at h; exact absurd h (by simp)
      | some s2 =>
          rw [h2] at h
          exact ih s2 s' (fun x hx => hQ x (List.mem_cons_of_mem l hx)) h
            (hstep s l s2 (hQ l (List.mem_cons_self l ls)) h2 hp)

lemma parse_hits_elim (lines : List String) (out : ℕ × ℕ × List HitRecord)
    (h : parse_hits lines = some out) :
    ∃ s s2, parseRun initParseState lines = some s ∧ parseFinal s = some s2 ∧
      out = (s2.total_hits, s2.show_hits, s2.records) := by
  unfold parse_hits at h
  cases h1 : parseRun initParseState lines with
  | none => rw [h1] at h; exact absurd h (by simp)
  | some s =>
      rw [h1] at h
      dsimp only at h
      cases h2 : parseFinal s with
      | none => rw [h2] at h; exact absurd h (by simp)
      | some s2 =>
          rw [h2] at h
          exact ⟨s, s2, rfl, h2, (Option.some.inj h).symm⟩

lemma parseStep_nomarker (s : ParseState) (l : String) (s' : ParseState)
    (hgt : pyStartsWith l ">" = false) (hid : s.id_str = none)
    (h : parseStep s l = some s') :
    s'.id_str = none ∧ s'.records = s.records ∧
    s'.show_hits = s.show_hits ∧ s'.total_hits = s.total_hits := by
  rcases parseStep_facts s l s' h with
    ⟨hg, _⟩ | ⟨hg, _⟩ | ⟨r, i, _, _, hsome, _⟩ | ⟨hr, hsh, ht, hi⟩
  · rw [hgt] at hg; exact absurd hg (by simp)
  · rw [hgt] at hg; exact absurd hg (by simp)
  · rw [hid] at hsome; exact absurd hsome (by simp)
  · exact ⟨hi.trans hid, hr, hsh, ht⟩

lemma dget_eq_none (d : List (String × String)) (k : String)
    (h : ∀ q ∈ d, q.1 ≠ k) : dget d k = none := by
  have hf : d.find? (fun p => p.1 == k) = none :=
    List.find?_eq_none.mpr (fun q hq => by simpa using h q hq)
  simp [dget, hf]

lemma chSplitGo_ne_nil (sep : List Char) (fuel : ℕ) :
    ∀ acc s, chSplitGo sep fuel acc s ≠ [] := by
  induction fuel with
  | zero => intro acc s; simp [chSplitGo]
  | succ n ih =>
      intro acc s
      unfold chSplitGo
      split
      · simp
      · split
        · simp
        · exact ih _ _

lemma pyLines_ne_nil (s : String) : pyLines s ≠ [] := by
  unfold pyLines pySplit
  intro hx
  exact chSplitGo_ne_nil _ _ _ _ (List.map_eq_nil_iff.mp hx)

lemma chStarts_iff (s p : List Char) : chStarts s p = true ↔ ∃ t, s = p ++ t := by
  induction p generalizing s with
  | nil =>
      constructor
      · intro _
        exact ⟨s, rfl⟩
      · intro _
        cases s <;> rfl
  | cons q qs ih =>
      cases s with
      | nil =>
          constructor
          · intro h
            exact absurd h (by rw [show chStarts [] (q :: qs) = false from rfl]; simp)
          · rintro ⟨t, ht⟩
            simp at ht
      | cons c cs =>
          rw [show chStarts (c :: cs) (q :: qs) = (c == q && chStarts cs qs) from rfl]
          rw [Bool.and_eq_true, beq_iff_eq, ih cs]
          constructor
          · rintro ⟨hcq, t, hct⟩
            exact ⟨t, by rw [hcq, hct]; rfl⟩
          · rintro ⟨t, ht⟩
            rw [List.cons_append] at ht
            injection ht with hc1 hc2
            exact ⟨hc1, t, hc2⟩

lemma chContains_iff (pat : List Char) : ∀ (fuel : ℕ) (s : List Char),
    s.length ≤ fuel → (chContains pat fuel s = true ↔ chOcc pat s) := by
  intro fuel
  induction fuel with
  | zero =>
      intro s hl
      have hs : s = [] := List.length_eq_zero.mp (Nat.le_zero.mp hl)
      subst hs
      show chStarts [] pat = true ↔ _
      constructor
      · intro h
        obtain ⟨t, ht⟩ := (chStarts_iff [] pat).mp h
        obtain ⟨hp, _⟩ := List.append_eq_nil.mp ht.symm
        exact ⟨[], [], by rw [hp]; rfl⟩
      · rintro ⟨a, b, hab⟩
        obtain ⟨h1, _⟩ := List.append_eq_nil.mp hab.symm
        obtain ⟨_, hp⟩ := List.append_eq_nil.mp h1
        rw [hp]
        rfl
  | succ n ih =>
      intro s hl
      unfold chContains
      by_cases hst : chStarts s pat = true
      · rw [if_pos hst]
        constructor
        · intro _
          obtain ⟨t, ht⟩ := (chStarts_iff _ _).mp hst
          exact ⟨[], t, by rw [ht]; rfl⟩
        · intro _
          rfl
      · rw [if_neg hst]
        cases s with
        | nil =>
            constructor
            · intro h
              simp at h
            · rintro ⟨a, b, hab⟩
              exfalso
              obtain ⟨h1, _⟩ := List.append_eq_nil.mp hab.symm
              obtain ⟨_, hp⟩ := List.append_eq_nil.mp h1
              apply hst
              rw [hp]
              rfl
        | cons c cs =>
            have hcs : cs.length ≤ n := by
              simp only [List.length_cons] at hl
              omega
            show chContains pat n cs = true ↔ _
            rw [ih cs hcs]
            constructor
            · rintro ⟨a, b, hab⟩
              exact ⟨c :: a, b, by rw [hab, List.cons_append, List.cons_append]⟩
            · rintro ⟨a, b, hab⟩
              cases a with
              | nil =>
                  exfalso
                  apply hst
                  apply (chStarts_iff _ _).mpr
                  exact ⟨b, by simpa using hab⟩
              | cons a0 as =>
                  rw [List.cons_append, List.cons_append] at hab
                  injection hab with h1 h2
                  exact ⟨as, b, h2⟩

lemma pyContains_iff (pat s : String) :
    pyContains pat s = true ↔ chOcc pat.data s.data :=
  chContains_iff pat.data s.data.length s.data (le_refl _)

lemma chOcc_nil (pat : List Char) (h : chOcc pat []) : pat = [] := by
  obtain ⟨a, b, heq⟩ := h
  obtain ⟨h1, _⟩ := List.append_eq_nil.mp heq.symm
  exact (List.append_eq_nil.mp h1).2

lemma chOcc_head_mem (p : Char) (ps s : List Char) (h : chOcc (p :: ps) s) :
    p ∈ s := by
  obtain ⟨a, b, heq⟩ := h
  rw [heq]
  simp

lemma chOcc_mono_left (pat x y : List Char) (h : chOcc pat x) :
    chOcc pat (x ++ y) := by
  obtain ⟨a, b, hab⟩ := h
  exact ⟨a, b ++ y, by rw [hab]; simp [List.append_assoc]⟩

lemma chOcc_mono_right (pat x y : List Char) (h : chOcc pat y) :
    chOcc pat (x ++ y) := by
  obtain ⟨a, b, hab⟩ := h
  exact ⟨x ++ a, b, by rw [hab]; simp [List.append_assoc]⟩

lemma chOcc_of_part (pat m a b : List Char) (h : chOcc pat m) :
    chOcc pat (a ++ m ++ b) :=
  chOcc_mono_left _ _ _ (chOcc_mono_right _ _ _ h)

lemma chOcc_reverse (pat s : List Char) (h : chOcc pat s) :
    chOcc pat.reverse s.reverse := by
  obtain ⟨a, b, hab⟩ := h
  exact ⟨b.reverse, a.reverse, by rw [hab]; simp [List.reverse_append, List.append_assoc]⟩

lemma chOcc_cases (pat x y : List Char) (h : chOcc pat (x ++ y)) :
    chOcc pat x ∨ chOcc pat y ∨
    ∃ p1 p2, pat = p1 ++ p2 ∧ p1 ≠ [] ∧ p2 ≠ [] ∧
      (∃ a, x = a ++ p1) ∧ (∃ b, y = p2 ++ b) := by
  obtain ⟨pre, post, heq⟩ := h
  rw [List.append_assoc] at heq
  rcases List.append_eq_append_iff.mp heq with ⟨a2, _, hy⟩ | ⟨c2, hx, hrest⟩
  · refine Or.inr (Or.inl ⟨a2, post, ?_⟩)
    rw [hy, List.append_assoc]
  · rcases List.append_eq_append_iff.mp hrest with ⟨e, hc2, _⟩ | ⟨e, hpat, hyy⟩
    · refine Or.inl ⟨pre, e, ?_⟩
      rw [hx, hc2, List.append_assoc]
    · by_cases hc2n : c2 = []
      · subst hc2n
        refine Or.inr (Or.inl ⟨[], post, ?_⟩)
        simp only [List.nil_append] at hpat
        rw [hyy, hpat]
        simp
      · by_cases hen : e = []
        · subst hen
          refine Or.inl ⟨pre, [], ?_⟩
          rw [List.append_nil] at hpat
          rw [List.append_nil, hx, hpat]
        · exact Or.inr (Or.inr ⟨c2, e, hpat, hc2n, hen, ⟨pre, hx⟩, ⟨post, hyy⟩⟩)

lemma chOcc_skip (p : Char) (ps x y : List Char) (hx : p ∉ x)
    (h : chOcc (p :: ps) (x ++ y)) : chOcc (p :: ps) y := by
  rcases chOcc_cases _ _ _ h with hin | hin | ⟨p1, p2, hp, hp1, _, ⟨a, ha⟩, _⟩
  · obtain ⟨pre, post, heq⟩ := hin
    exact absurd (by rw [heq]; simp : p ∈ x) hx
  · exact hin
  · exfalso
    cases p1 with
    | nil => exact hp1 rfl
    | cons q qs =>
        rw [List.cons_append] at hp
        injection hp with h1 _
        apply hx
        rw [ha, h1]
        simp

lemma chOcc_junction (pat x y : List Char) (hy : ∀ c cs, y = c :: cs → c ∉ pat)
    (h : chOcc pat (x ++ y)) : chOcc pat x ∨ chOcc pat y := by
  rcases chOcc_cases _ _ _ h with hin | hin | ⟨p1, p2, hp, _, hp2, _, ⟨b, hb⟩⟩
  · exact Or.inl hin
  · exact Or.inr hin
  · exfalso
    cases p2 with
    | nil => exact hp2 rfl
    | cons c cs =>
        refine hy c (cs ++ b) (by rw [hb]; rfl) ?_
        rw [hp]
        simp

lemma chJoin_glue (sd xd bd : List Char) (L : List (List Char)) :
    chJoin sd ((xd ++ sd ++ bd) :: L) = xd ++ sd ++ chJoin sd (bd :: L) := by
  cases L with
  | nil => rfl
  | cons z zs =>
      show (xd ++ sd ++ bd) ++ sd ++ chJoin sd (z :: zs) =
        xd ++ sd ++ ((bd ++ sd ++ chJoin sd (z :: zs)))
      simp [List.append_assoc]

lemma pyJoin_foldl_data (sep : String) : ∀ (xs : List String) (a : String),
    (xs.foldl (fun a b => a ++ sep ++ b) a).data =
      chJoin sep.data (a.data :: xs.map String.data) := by
  intro xs
  induction xs with
  | nil => intro a; rfl
  | cons b bs ih =>
      intro a
      rw [List.foldl_cons, ih (a ++ sep ++ b), List.map_cons]
      rw [show (a ++ sep ++ b).data = a.data ++ sep.data ++ b.data from
        by rw [String.data_append, String.data_append]]
      exact chJoin_glue sep.data a.data b.data (bs.map String.data)

lemma pyJoin_data (sep : String) (xs : List String) :
    (pyJoin sep xs).data = chJoin sep.data (xs.map String.data) := by
  cases xs with
  | nil => rfl
  | cons x xs => exact pyJoin_foldl_data sep xs x

lemma chSplitGo_join (sep : List Char) (hs : sep ≠ []) :
    ∀ (fuel : ℕ) (acc s : List Char), s.length ≤ fuel →
      chJoin sep (chSplitGo sep fuel acc s) = acc.reverse ++ s := by
  intro fuel
  induction fuel with
  | zero =>
      intro acc s hl
      have hse : s = [] := List.length_eq_zero.mp (Nat.le_zero.mp hl)
      subst hse
      rfl
  | succ n ih =>
      intro acc s hl
      unfold chSplitGo
      by_cases hst : chStarts s sep = true
      · rw [if_pos hst]
        obtain ⟨t, hts⟩ := (chStarts_iff s sep).mp hst
        have hsl : 1 ≤ sep.length := List.length_pos.mpr hs
        have htn : t.length ≤ n := by
          rw [hts, List.length_append] at hl
          omega
        rw [hts, List.drop_left]
        cases hrec : chSplitGo sep n [] t with
        | nil => exact absurd hrec (chSplitGo_ne_nil _ _ _ _)
        | cons r rs =>
            have hj : chJoin sep (acc.reverse :: r :: rs) =
                acc.reverse ++ sep ++ chJoin sep (r :: rs) := rfl
            rw [hj, ← hrec, ih [] t htn]
            simp [List.append_assoc]
      · rw [if_neg hst]
        cases s with
        | nil =>
            show chJoin sep [acc.reverse] = acc.reverse ++ []
            rw [List.append_nil]
            rfl
        | cons c cs =>
            have hcn : cs.length ≤ n := by
              simp only [List.length_cons] at hl
              omega
            show chJoin sep (chSplitGo sep n (c :: acc) cs) = acc.reverse ++ (c :: cs)
            rw [ih (c :: acc) cs hcn, List.reverse_cons, List.append_assoc]
            rfl

lemma pySplit_join (s sep : String) (hsep : sep.data ≠ []) :
    chJoin sep.data ((pySplit s sep).map String.data) = s.data := by
  unfold pySplit
  rw [List.map_map]
  rw [show (String.data ∘ String.mk) = id from funext fun l => rfl, List.map_id]
  have hj := chSplitGo_join sep.data hsep (s.data.length + 1) [] s.data (Nat.le_succ _)
  simpa using hj

lemma pySplit_ne_nil (s sep : String) : pySplit s sep ≠ [] := by
  unfold pySplit
  intro hx
  exact chSplitGo_ne_nil _ _ _ _ (List.map_eq_nil_iff.mp hx)

lemma chJoin_split (c : Char) (pat : List Char) (hp : pat ≠ []) (hc : c ∉ pat) :
    ∀ es, chOcc pat (chJoin [c] es) → ∃ e ∈ es, chOcc pat e := by
  intro es
  induction es with
  | nil => intro h; exact absurd (chOcc_nil _ h) hp
  | cons x xs ih =>
      intro h
      cases xs with
      | nil => exact ⟨x, List.mem_cons_self _ _, h⟩
      | cons y ys =>
          have hform : chJoin [c] (x :: y :: ys) = x ++ (c :: chJoin [c] (y :: ys)) := by
            show x ++ [c] ++ chJoin [c] (y :: ys) = _
            rw [List.append_assoc]
            rfl
          rw [hform] at h
          rcases chOcc_junction pat x (c :: chJoin [c] (y :: ys))
            (fun c2 cs2 hcc => by injection hcc with h1 _; rw [← h1]; exact hc) h with
            hx | hy
          · exact ⟨x, List.mem_cons_self _ _, hx⟩
          · obtain ⟨p, ps, hpat⟩ := List.exists_cons_of_ne_nil hp
            have hp2 : p ∉ [c] := by
              intro hmem
              have hpc : p = c := List.mem_singleton.mp hmem
              apply hc
              rw [hpat, ← hpc]
              exact List.mem_cons_self _ _
            have hy2 : chOcc (p :: ps) ([c] ++ chJoin [c] (y :: ys)) := by
              rw [← hpat]
              exact hy
            have hy3 : chOcc pat (chJoin [c] (y :: ys)) := by
              rw [hpat]
              exact chOcc_skip p ps [c] _ hp2 hy2
            obtain ⟨e, he, hocc⟩ := ih hy3
            exact ⟨e, List.mem_cons_of_mem _ he, hocc⟩

lemma chJoin_mem_mono (sep pat : List Char) :
    ∀ (es : List (List Char)) (e : List Char), e ∈ es → chOcc pat e →
      chOcc pat (chJoin sep es) := by
  intro es
  induction es with
  | nil => intro e he _; exact absurd he (List.not_mem_nil e)
  | cons x xs ih =>
      intro e he hocc
      rcases List.mem_cons.mp he with rfl | hin
      · cases xs with
        | nil => exact hocc
        | cons y ys => exact chOcc_mono_left _ _ _ (chOcc_mono_left _ _ _ hocc)
      · cases xs with
        | nil => exact absurd hin (List.not_mem_nil e)
        | cons y ys => exact chOcc_mono_right _ _ _ (ih e hin hocc)

lemma pySplit_occ_mono (pat : List Char) (s sep e : String) (hsep : sep.data ≠ [])
    (he : e ∈ pySplit s sep) (h : chOcc pat e.data) : chOcc pat s.data := by
  have hmem : e.data ∈ (pySplit s sep).map String.data := List.mem_map_of_mem _ he
  have h2 := chJoin_mem_mono sep.data pat _ _ hmem h
  rwa [pySplit_join s sep hsep] at h2

lemma chDropWs_suffix (x : List Char) : ∃ pre, x = pre ++ chDropWs x := by
  induction x with
  | nil => exact ⟨[], rfl⟩
  | cons c cs ih =>
      by_cases hw : chIsWs c = true
      · obtain ⟨pre, hp⟩ := ih
        refine ⟨c :: pre, ?_⟩
        rw [show chDropWs (c :: cs) = chDropWs cs from by simp [chDropWs, hw]]
        rw [List.cons_append]
        exact congrArg (fun z => c :: z) hp
      · refine ⟨[], ?_⟩
        rw [show chDropWs (c :: cs) = c :: cs from by simp [chDropWs, hw]]
        rfl

lemma chDropWs_keeps (p : Char) (ps : List Char) (hp : chIsWs p = false) :
    ∀ x, chOcc (p :: ps) x → chOcc (p :: ps) (chDropWs x) := by
  intro x
  induction x with
  | nil =>
      intro h
      exact absurd (chOcc_nil _ h) (by simp)
  | cons c cs ih =>
      intro h
      by_cases hw : chIsWs c = true
      · rw [show chDropWs (c :: cs) = chDropWs cs from by simp [chDropWs, hw]]
        apply ih
        obtain ⟨a, b, heq⟩ := h
        cases a with
        | nil =>
            exfalso
            simp only [List.nil_append] at heq
            rw [List.cons_append] at heq
            injection heq with h1 _
            rw [h1] at hw
            rw [hw] at hp
            cases hp
        | cons a0 as =>
            rw [List.cons_append, List.cons_append] at heq
            injection heq with _ h2
            exact ⟨as, b, h2⟩
      · rw [show chDropWs (c :: cs) = c :: cs from by simp [chDropWs, hw]]
        exact h

lemma pyStrip_part (s : String) : ∃ a b, s.data = a ++ (pyStrip s).data ++ b := by
  have key : ∀ (x : List Char), ∃ a b,
      x = a ++ (chDropWs (chDropWs x).reverse).reverse ++ b := by
    intro x
    obtain ⟨p1, h1⟩ := chDropWs_suffix x
    obtain ⟨p2, h2⟩ := chDropWs_suffix (chDropWs x).reverse
    refine ⟨p1, p2.reverse, ?_⟩
    have h3 : chDropWs x = (chDropWs ((chDropWs x).reverse)).reverse ++ p2.reverse := by
      have hc := congrArg List.reverse h2
      rw [List.reverse_reverse, List.reverse_append] at hc
      exact hc
    rw [List.append_assoc, ← h3]
    exact h1
  exact key s.data

lemma pyStrip_back (pat : List Char) (t : String)
    (h : chOcc pat (pyStrip t).data) : chOcc pat t.data := by
  obtain ⟨a, b, hab⟩ := pyStrip_part t
  rw [hab]
  exact chOcc_of_part _ _ _ _ h

lemma pyStrip_keeps (pat : List Char) (q : Char) (qs : List Char)
    (hpat : pat = q :: qs) (hws : ∀ c ∈ pat, chIsWs c = false) (s : String)
    (h : chOcc pat s.data) : chOcc pat (pyStrip s).data := by
  have hqw : chIsWs q = false := hws q (by rw [hpat]; exact List.mem_cons_self _ _)
  have h1 : chOcc pat (chDropWs s.data) := by
    rw [hpat] at h ⊢
    exact chDropWs_keeps q qs hqw _ h
  have h2 : chOcc pat.reverse (chDropWs s.data).reverse := chOcc_reverse _ _ h1
  have hpr : ∃ r rs, pat.reverse = r :: rs := by
    apply List.exists_cons_of_ne_nil
    rw [hpat]
    simp
  obtain ⟨r, rs, hpr⟩ := hpr
  have hrmem : r ∈ pat := List.mem_reverse.mp (by rw [hpr]; exact List.mem_cons_self _ _)
  have h3 : chOcc pat.reverse (chDropWs (chDropWs s.data).reverse) := by
    rw [hpr] at h2 ⊢
    exact chDropWs_keeps r rs (hws r hrmem) _ h2
  have h4 := chOcc_reverse _ _ h3
  rw [List.reverse_reverse] at h4
  exact h4

lemma getLastD_mem (l : List String) (d : String) (h : l ≠ []) :
    l.getLastD d ∈ l := by
  rw [List.getLastD_eq_getLast?, List.getLast?_eq_getLast l h]
  exact List.getLast_mem h

lemma dropLast_concat_getLastD (l : List String) (d : String) (h : l ≠ []) :
    l.dropLast ++ [l.getLastD d] = l := by
  have h1 : l.getLastD d = l.getLast h := by
    rw [List.getLastD_eq_getLast?, List.getLast?_eq_getLast l h]
    rfl
  rw [h1]
  exact List.dropLast_append_getLast h

lemma headD_mem (l : List String) (d : String) (h : l ≠ []) : l.headD d ∈ l := by
  cases l with
  | nil => exact absurd rfl h
  | cons a t => exact List.mem_cons_self a t

lemma anchorWrap_data (nm lastI : String) :
    (anchorWrap nm lastI).data =
      "<a href=".data ++ (qc.data ++ ("#".data ++ (nm.data ++
        (qc.data ++ (">".data ++ (lastI.data ++ "</a>".data)))))) := by
  unfold anchorWrap
  simp only [String.data_append, List.append_assoc]

lemma chOcc_junction2 (pat x y : List Char) (c : Char) (hh : y.head? = some c)
    (hc : c ∉ pat) (h : chOcc pat (x ++ y)) : chOcc pat x ∨ chOcc pat y := by
  apply chOcc_junction pat x y _ h
  intro c2 cs2 hy
  rw [hy] at hh
  simp only [List.head?, Option.some.injEq] at hh
  rw [hh]
  exact hc

lemma anchor_fsa_elim (nm lastI : String)
    (h : chOcc ".fsa".data (anchorWrap nm lastI).data) :
    chOcc ".fsa".data nm.data ∨ chOcc ".fsa".data lastI.data := by
  rw [anchorWrap_data] at h
  have h1 := chOcc_skip '.' "fsa".data "<a href=".data _ (by decide) h
  have h2 := chOcc_skip '.' "fsa".data qc.data _ (by decide) h1
  have h3 := chOcc_skip '.' "fsa".data "#".data _ (by decide) h2
  rcases chOcc_junction2 ".fsa".data nm.data
      (qc.data ++ (">".data ++ (lastI.data ++ "</a>".data))) (Char.ofNat 39)
      rfl (by decide) h3 with hn | hrest
  · exact Or.inl hn
  · have h4 := chOcc_skip '.' "fsa".data qc.data _ (by decide) hrest
    have h5 := chOcc_skip '.' "fsa".data ">".data _ (by decide) h4
    rcases chOcc_junction2 ".fsa".data lastI.data "</a>".data '<' rfl
      (by decide) h5 with hl | hend
    · exact Or.inr hl
    · exfalso
      have hmem := chOcc_head_mem '.' "fsa".data _ hend
      revert hmem
      decide

lemma anchor_db_mono (nm lastI : String)
    (h : chOcc "Database:".data lastI.data) :
    chOcc "Database:".data (anchorWrap nm lastI).data := by
  rw [anchorWrap_data]
  apply chOcc_mono_right
  apply chOcc_mono_right
  apply chOcc_mono_right
  apply chOcc_mono_right
  apply chOcc_mono_right
  apply chOcc_mono_right
  exact chOcc_mono_left _ _ _ h

lemma nameSplit_elim (pat : List Char) (p : Char) (ps : List Char)
    (hp : pat = p :: ps) (h0 : String)
    (h : chOcc pat
      (if pyContains "|" h0 = true then (pySplit h0 "|").getD 1 "" else h0).data) :
    chOcc pat h0.data := by
  split at h
  · cases hsp : pySplit h0 "|" with
    | nil => exact absurd hsp (pySplit_ne_nil h0 "|")
    | cons a t =>
        cases t with
        | nil =>
            rw [hsp] at h
            have hocc : chOcc pat [] := h
            rw [hp] at hocc
            have := chOcc_nil _ hocc
            simp at this
        | cons b t2 =>
            rw [hsp] at h
            have hb : ((a :: b :: t2).getD 1 "") = b := rfl
            rw [hb] at h
            have hbm : b ∈ pySplit h0 "|" := by
              rw [hsp]
              exact List.mem_cons_of_mem _ (List.mem_cons_self _ _)
            exact pySplit_occ_mono pat h0 "|" b (by decide) hbm h
  · exact h

lemma rewrite_fsa_elim (t nm : String)
    (hnm : chOcc ".fsa".data nm.data → chOcc ".fsa".data (pyStrip t).data)
    (h : pyContains ".fsa" (pyJoin " " ((pySplit (pyStrip t) " ").dropLast ++
      [anchorWrap nm ((pySplit (pyStrip t) " ").getLastD "")])) = true) :
    pyContains ".fsa" t = true := by
  rw [pyContains_iff, pyJoin_data, List.map_append] at h
  simp only [List.map_cons, List.map_nil] at h
  obtain ⟨e, he, hocc⟩ := chJoin_split ' ' ".fsa".data (by decide) (by decide) _ h
  have hback : chOcc ".fsa".data (pyStrip t).data → pyContains ".fsa" t = true := by
    intro hx
    rw [pyContains_iff]
    exact pyStrip_back _ t hx
  rcases List.mem_append.mp he with hL | hR
  · obtain ⟨x, hx, rfl⟩ := List.mem_map.mp hL
    have hxi : x ∈ pySplit (pyStrip t) " " := List.dropLast_subset _ hx
    exact hback (pySplit_occ_mono _ _ _ _ (by decide) hxi hocc)
  · have heq : e = (anchorWrap nm ((pySplit (pyStrip t) " ").getLastD "")).data :=
      List.mem_singleton.mp hR
    rw [heq] at hocc
    rcases anchor_fsa_elim nm _ hocc with hn | hl
    · exact hback (hnm hn)
    · have hne := pySplit_ne_nil (pyStrip t) " "
      have hlast := getLastD_mem (pySplit (pyStrip t) " ") "" hne
      exact hback (pySplit_occ_mono _ _ _ _ (by decide) hlast hl)

lemma rewrite_db_mono (t nm : String) (h : pyContains "Database:" t = true) :
    pyContains "Database:" (pyJoin " " ((pySplit (pyStrip t) " ").dropLast ++
      [anchorWrap nm ((pySplit (pyStrip t) " ").getLastD "")])) = true := by
  rw [pyContains_iff] at h
  rw [pyContains_iff, pyJoin_data, List.map_append]
  simp only [List.map_cons, List.map_nil]
  have h1 : chOcc "Database:".data (pyStrip t).data :=
    pyStrip_keeps _ 'D' "atabase:".data rfl (by decide) t h
  rw [← pySplit_join (pyStrip t) " " (by decide)] at h1
  obtain ⟨e, he, hocc⟩ := chJoin_split ' ' "Database:".data (by decide) (by decide) _ h1
  obtain ⟨x, hxi, rfl⟩ := List.mem_map.mp he
  have hne := pySplit_ne_nil (pyStrip t) " "
  have hcat := dropLast_concat_getLastD (pySplit (pyStrip t) " ") "" hne
  rw [← hcat] at hxi
  rcases List.mem_append.mp hxi with hL | hR
  · exact chJoin_mem_mono [' '] _ _ x.data
      (List.mem_append_left _ (List.mem_map_of_mem _ hL)) hocc
  · have hxl : x = (pySplit (pyStrip t) " ").getLastD "" := List.mem_singleton.mp hR
    rw [hxl] at hocc
    have hw := anchor_db_mono nm _ hocc
    exact chJoin_mem_mono [' '] _ _ _
      (List.mem_append_right _ (List.mem_singleton.mpr rfl)) hw

lemma summary_fsa_elim (st : PrepState) (t : String)
    (h : pyContains ".fsa" (prepSummary st t) = true) :
    pyContains ".fsa" t = true := by
  unfold prepSummary at h
  by_cases hg : (st.end_ && !st.summary_end &&
      !(pyContains "Sequences producing significant alignment" t)) = true
  · rw [if_pos hg] at h
    dsimp only at h
    by_cases hlen : (pySplit (pyStrip t) " ").length > 3
    · rw [if_pos hlen] at h
      refine rewrite_fsa_elim t _ ?_ h
      intro hn
      have hh := nameSplit_elim ".fsa".data '.' "fsa".data rfl
        ((pySplit (pyStrip t) " ").headD "") hn
      have hne := pySplit_ne_nil (pyStrip t) " "
      exact pySplit_occ_mono _ _ _ _ (by decide) (headD_mem _ "" hne) hh
    · rw [if_neg hlen] at h
      exact h
  · rw [if_neg hg] at h
    exact h

lemma summary_db_mono (st : PrepState) (t : String)
    (h : pyContains "Database:" t = true) :
    pyContains "Database:" (prepSummary st t) = true := by
  unfold prepSummary
  by_cases hg : (st.end_ && !st.summary_end &&
      !(pyContains "Sequences producing significant alignment" t)) = true
  · rw [if_pos hg]
    dsimp only
    by_cases hlen : (pySplit (pyStrip t) " ").length > 3
    · rw [if_pos hlen]
      exact rewrite_db_mono t _ h
    · rw [if_neg hlen]
      exact h
  · rw [if_neg hg]
    exact h

lemma prepBody_some (st : PrepState) (l : String)
    (h3 : pyContains "/data/blast/" l = false)
    (h4 : pyContains "Query=" l = false)
    (hdb : st.databases = "") :
    ∃ line1, prepBody st l = (st, some line1) ∧
      (pyContains ".fsa" line1 = true → pyContains ".fsa" l = true) ∧
      (pyContains "Database:" l = true → pyContains "Database:" line1 = true) := by
  cases hE : st.end_ with
  | true =>
      refine ⟨l, ?_, fun hx => hx, fun hx => hx⟩
      unfold prepBody
      rw [hE]
      rw [if_neg (by simp)]
  | false =>
      unfold prepBody
      rw [hE, if_pos rfl, h3]
      rw [if_neg (by simp)]
      rw [hdb]
      dsimp only
      rw [show pyStrip "" ++ "\n" = "\n" from rfl]
      by_cases hm : (pyContains " sequences; " l && pyContains " total letters" l) = true
      · rw [if_pos hm]
        have hq : pyContains "Query=" ("\n" ++ l) = false := by
          cases hx : pyContains "Query=" ("\n" ++ l) with
          | false => rfl
          | true =>
              exfalso
              have ho := (pyContains_iff _ _).mp hx
              rw [String.data_append] at ho
              have hqq := chOcc_skip 'Q' "uery=".data "\n".data l.data (by decide) ho
              simpa [h4] using (pyContains_iff "Query=" l).mpr hqq
        rw [hq, if_neg (by simp)]
        by_cases hlen : pyContains "Length=" ("\n" ++ l) = true
        · rw [if_pos hlen]
          refine ⟨"Query " ++ ("\n" ++ l), rfl, ?_, ?_⟩
          · intro hx
            have ho := (pyContains_iff _ _).mp hx
            rw [String.data_append, String.data_append] at ho
            have o1 := chOcc_skip '.' "fsa".data "Query ".data _ (by decide) ho
            have o2 := chOcc_skip '.' "fsa".data "\n".data _ (by decide) o1
            exact (pyContains_iff _ _).mpr o2
          · intro hx
            rw [pyContains_iff, String.data_append, String.data_append]
            exact chOcc_mono_right _ _ _
              (chOcc_mono_right _ _ _ ((pyContains_iff _ _).mp hx))
        · rw [if_neg hlen]
          refine ⟨"\n" ++ l, rfl, ?_, ?_⟩
          · intro hx
            have ho := (pyContains_iff _ _).mp hx
            rw [String.data_append] at ho
            exact (pyContains_iff _ _).mpr
              (chOcc_skip '.' "fsa".data "\n".data _ (by decide) ho)
          · intro hx
            rw [pyContains_iff, String.data_append]
            exact chOcc_mono_right _ _ _ ((pyContains_iff _ _).mp hx)
      · rw [if_neg hm]
        rw [h4, if_neg (by simp)]
        by_cases hlen : pyContains "Length=" l = true
        · rw [if_pos hlen]
          refine ⟨"Query " ++ l, rfl, ?_, ?_⟩
          · intro hx
            have ho := (pyContains_iff _ _).mp hx
            rw [String.data_append] at ho
            exact (pyContains_iff _ _).mpr
              (chOcc_skip '.' "fsa".data "Query ".data _ (by decide) ho)
          · intro hx
            rw [pyContains_iff, String.data_append]
            exact chOcc_mono_right _ _ _ ((pyContains_iff _ _).mp hx)
        · rw [if_neg hlen]
          exact ⟨l, rfl, fun hx => hx, fun hx => hx⟩

lemma prepTail_grow (st : PrepState) (l : String)
    (h3 : pyContains "/data/blast/" l = false)
    (h4 : pyContains "Query=" l = false)
    (h5 : pyContains ".fsa" l = true → pyContains "Database:" l = true)
    (hdb : st.databases = "") :
    (prepTail st l).databases = st.databases ∧
    (prepTail st l).prev_line = st.prev_line ∧
    st.out.length + 1 ≤ (prepTail st l).out.length := by
  obtain ⟨line1, hbody, hfsa, hdbm⟩ := prepBody_some st l h3 h4 hdb
  have h5a : pyContains ".fsa" line1 = true → pyContains "Database:" line1 = true :=
    fun hx => hdbm (h5 (hfsa hx))
  have hchk : (pyContains ".fsa" (prepSummary st line1) &&
      !(pyContains "Database:" (prepSummary st line1))) = false := by
    cases hx : pyContains ".fsa" (prepSummary st line1) with
    | false => simp
    | true =>
        have hdbt := summary_db_mono st line1 (h5a (summary_fsa_elim st line1 hx))
        rw [hdbt]
        rfl
  have hlpos := List.length_pos.mpr (pyLines_ne_nil (prepSummary st line1))
  unfold prepTail
  rw [hbody]
  dsimp only
  rw [hchk]
  rw [if_neg (by simp)]
  by_cases ha : (st.summary_end && pyStartsWith (prepSummary st line1) ">") = true
  · rw [if_pos ha]
    refine ⟨rfl, rfl, ?_⟩
    simp only [List.length_append, List.length_cons, List.length_nil]
    omega
  · rw [if_neg ha]
    refine ⟨rfl, rfl, ?_⟩
    simp only [List.length_append]
    omega

lemma prepStep_grow2 (st : PrepState) (l : String)
    (h1 : pyStartsWith l "BLAST" = false)
    (h3 : pyContains "/data/blast/" l = false)
    (h4 : pyContains "Query=" l = false)
    (h5 : pyContains ".fsa" l = true → pyContains "Database:" l = true)
    (hnc : ¬(st.prev_line = "" ∧ l = ""))
    (hdb : st.databases = "") :
    (prepStep st l).databases = "" ∧ (prepStep st l).prev_line = l ∧
    st.out.length + 1 ≤ (prepStep st l).out.length := by
  unfold prepStep
  rw [if_neg (by simp [h1]), if_neg hnc]
  dsimp only
  by_cases hA : pyContains "Sequences producing significant alignment" l = true
  · rw [if_pos hA]
    by_cases hB : pyStartsWith l ">" = true
    · rw [if_pos hB]
      have hg := prepTail_grow
        { st with prev_line := l, end_ := true, summary_end := true } l h3 h4 h5 hdb
      exact ⟨hg.1.trans hdb, hg.2.1, hg.2.2⟩
    · rw [if_neg hB]
      have hg := prepTail_grow
        { st with prev_line := l, end_ := true } l h3 h4 h5 hdb
      exact ⟨hg.1.trans hdb, hg.2.1, hg.2.2⟩
  · rw [if_neg hA]
    by_cases hB : pyStartsWith l ">" = true
    · rw [if_pos hB]
      have hg := prepTail_grow
        { st with prev_line := l, summary_end := true } l h3 h4 h5 hdb
      exact ⟨hg.1.trans hdb, hg.2.1, hg.2.2⟩
    · rw [if_neg hB]
      have hg := prepTail_grow { st with prev_line := l } l h3 h4 h5 hdb
      exact ⟨hg.1.trans hdb, hg.2.1, hg.2.2⟩

lemma prep_grow2 : ∀ (ls : List String) (st : PrepState),
    (∀ l ∈ ls, dropFree l) → noCollapse st.prev_line ls = true →
    st.databases = "" →
    st.out.length + ls.length ≤ (List.foldl prepStep st ls).out.length := by
  intro ls
  induction ls with
  | nil => intro st _ _ _; simp
  | cons l ls ih =>
      intro st hc hnc hdb
      obtain ⟨h1, h3, h4, h5⟩ := hc l (List.mem_cons_self l ls)
      simp only [noCollapse, Bool.and_eq_true] at hnc
      obtain ⟨hnc1, hnc2⟩ := hnc
      have hnc1a : ¬(st.prev_line = "" ∧ l = "") := by
        rintro ⟨ha, hb⟩
        rw [ha, hb] at hnc1
        simp at hnc1
      have hstep := prepStep_grow2 st l h1 h3 h4 h5 hnc1a hdb
      have hrest := ih (prepStep st l)
        (fun x hx => hc x (List.mem_cons_of_mem l hx))
        (by rw [hstep.2.1]; exact hnc2) hstep.1
      simp only [List.foldl_cons, List.length_cons]
      omega

lemma chromStep_passthrough (st : ChromState) (l : String)
    (hgl : pyStartsWith l ">" = false) (hrn : pyContains "ref|NC_" l = false)
    (hgi : pyContains "gi|" l = false) (hsr : st.start_record = false) :
    chromStep st l = some { st with newoutput := st.newoutput ++ (l ++ "\n") } := by
  simp only [chromStep, hgl, hrn, hgi, hsr, Bool.false_eq_true, if_false,
    Bool.or_self, eq_self_iff_true, if_true, String.append_assoc]

lemma chromRun_passthrough : ∀ (ls : List String) (st : ChromState),
    (∀ l ∈ ls, pyStartsWith l ">" = false ∧ pyContains "ref|NC_" l = false ∧
      pyContains "gi|" l = false) →
    st.start_record = false →
    chromRun st ls = some { st with newoutput := st.newoutput ++ joinNL ls } := by
  intro ls
  induction ls with
  | nil =>
      intro st _ _
      show some st = _
      rw [joinNL, String.append_empty]
  | cons l ls ih =>
      intro st hc hsr
      obtain ⟨hgl, hrn, hgi⟩ := hc l (List.mem_cons_self l ls)
      unfold chromRun
      rw [chromStep_passthrough st l hgl hrn hgi hsr]
      dsimp only
      rw [ih { st with newoutput := st.newoutput ++ (l ++ "\n") }
        (fun x hx => hc x (List.mem_cons_of_mem l hx)) hsr]
      simp only [joinNL, String.append_assoc]

lemma countsInv_step (s : ParseState) (l : String) (s' : ParseState)
    (h : parseStep s l = some s')
    (hp : s.show_hits ≤ MAX_GRAPH_HITS ∧ s.show_hits ≤ s.total_hits ∧
      (pyTruthyStr s.id_str = true → s.show_hits + 1 ≤ s.total_hits)) :
    s'.show_hits ≤ MAX_GRAPH_HITS ∧ s'.show_hits ≤ s'.total_hits ∧
      (pyTruthyStr s'.id_str = true → s'.show_hits + 1 ≤ s'.total_hits) := by
  obtain ⟨hp1, hp2, hp3⟩ := hp
  rcases parseStep_facts s l s' h with
    ⟨_, r, _, _, hmax, hid, _, hsh, ht⟩ | ⟨_, _, hsh, ht⟩ |
    ⟨r, i, _, _, _, _, hsh, ht, hi⟩ | ⟨_, hsh, ht, hi⟩
  · have hx := hp3 hid
    exact ⟨by omega, by omega, fun _ => by omega⟩
  · exact ⟨by omega, by omega, fun _ => by omega⟩
  · refine ⟨by omega, by omega, fun htr => ?_⟩
    rw [hi] at htr
    have := hp3 htr
    omega
  · refine ⟨by omega, by omega, fun htr => ?_⟩
    rw [hi] at htr
    have := hp3 htr
    omega

lemma lenInv_step (s : ParseState) (l : String) (s' : ParseState)
    (h : parseStep s l = some s')
    (hp : s.show_hits ≤ MAX_GRAPH_HITS ∧ s.show_hits ≤ s.records.length) :
    s'.show_hits ≤ MAX_GRAPH_HITS ∧ s'.show_hits ≤ s'.records.length := by
  obtain ⟨hp1, hp2⟩ := hp
  rcases parseStep_facts s l s' h with
    ⟨_, r, _, _, hmax, _, hrec, hsh, _⟩ | ⟨_, hrec, hsh, _⟩ |
    ⟨r, i, _, _, _, hrec, hsh, _, _⟩ | ⟨hrec, hsh, _, _⟩
  · rw [hsh, hrec]
    simp only [List.length_append, List.length_singleton]
    omega
  · rw [hsh, hrec]; exact ⟨by omega, hp2⟩
  · rw [hsh, hrec]
    simp only [List.length_append, List.length_singleton]
    omega
  · rw [hsh, hrec]; exact ⟨hp1, hp2⟩

lemma pvalInv_step (s : ParseState) (l : String) (s' : ParseState)
    (h : parseStep s l = some s')
    (hp : ∀ rec ∈ s.records, rec.pvalue.val ≤ PVALUE_CUTOFF) :
    ∀ rec ∈ s'.records, rec.pvalue.val ≤ PVALUE_CUTOFF := by
  rcases parseStep_facts s l s' h with
    ⟨_, r, hrp, hcut, _, _, hrec, _, _⟩ | ⟨_, hrec, _, _⟩ |
    ⟨r, i, hrp, hcut, _, hrec, _, _, _⟩ | ⟨hrec, _, _, _⟩
  · intro rec hm
    rw [hrec] at hm
    rcases List.mem_append.mp hm with hm2 | hm2
    · exact hp rec hm2
    · rw [List.mem_singleton.mp hm2, hrp]; exact hcut
  · intro rec hm; rw [hrec] at hm; exact hp rec hm
  · intro rec hm
    rw [hrec] at hm
    rcases List.mem_append.mp hm with hm2 | hm2
    · exact hp rec hm2
    · rw [List.mem_singleton.mp hm2, hrp]; exact hcut
  · intro rec hm; rw [hrec] at hm; exact hp rec hm

lemma starts_gt_not_length (l : String) (h : pyStartsWith l ">" = true) :
    pyStartsWith l "Length=" = false := by
  unfold pyStartsWith at h ⊢
  cases hd : l.data with
  | nil =>
      rw [hd, show chStarts [] ">".data = false from rfl] at h
      exact absurd h (by simp)
  | cons a as =>
      rw [hd, show chStarts (a :: as) ">".data = (a == '>' && chStarts as [])
        from rfl] at h
      have ha : a = '>' := eq_of_beq ((Bool.and_eq_true _ _) ▸ h).1
      subst ha
      rw [show chStarts ('>' :: as) "Length=".data =
        (('>' == 'L') && chStarts as "ength=".data) from rfl,
        show (('>' : Char) == 'L') = false from by decide, Bool.false_and]

/-! ### Claim theorems -/

/-- Claim C3: for every report on which the Hit Extractor returns, the shown
hit count is at most the configured maximum (50) and at most the total hit
count returned alongside it. -/
theorem C3_shown_bounds (lines : List String) (t sh : ℕ)
    (recs : List HitRecord) (h : parse_hits lines = some (t, sh, recs)) :
    sh ≤ MAX_GRAPH_HITS ∧ sh ≤ t := by
  obtain ⟨s, s2, hrun, hfin, hout⟩ := parse_hits_elim lines (t, sh, recs) h
  have hinv := parseRun_inv
    (fun s => s.show_hits ≤ MAX_GRAPH_HITS ∧ s.show_hits ≤ s.total_hits ∧
      (pyTruthyStr s.id_str = true → s.show_hits + 1 ≤ s.total_hits))
    (fun _ => True)
    (fun s l s' _ hstep hp => countsInv_step s l s' hstep hp)
    lines initParseState s (fun _ _ => trivial) hrun
    ⟨by decide, by decide, fun hx => absurd hx (by decide)⟩
  obtain ⟨h1, h2, h3⟩ := hinv
  have hT : t = s2.total_hits := congrArg Prod.fst hout
  have hS : sh = s2.show_hits := congrArg (fun p => p.2.1) hout
  rcases parseFinal_facts s s2 hfin with ⟨r, _, _, hmax, hid, _, hsh2, ht2⟩ | heq
  · have hx := h3 hid
    rw [hT, hS, hsh2, ht2]
    exact ⟨by omega, by omega⟩
  · rw [hT, hS, heq]
    exact ⟨h1, h2⟩

/-- Witness for C3 at a concrete three-line report with one retained hit. -/
theorem C3_witness : (1 : ℕ) ≤ MAX_GRAPH_HITS ∧ (1 : ℕ) ≤ 1 :=
  C3_shown_bounds W3lines 1 1
    [{ query_length := none, name := "A: p=0.001 s=1 ", value := 2, start := 1,
       end_ := 2, strand := none, exp := mkRat 1 1000, same_row := 0,
       pvalue := ⟨mkRat 1 1000, "0.001"⟩ }] (by decide)

set_option maxRecDepth 10000 in
/-- Claim C2 (as stated) is false: on `C2lines` the Hit Extractor returns a
record list of length 52, which exceeds the fixed maximum of 50 — the
finalizations triggered by a further score line of the same record are
appended without the shown-count bound. -/
theorem C2_counterexample :
    ((parse_hits C2lines).map (fun out => out.2.2.length)) = some 52 ∧
    ¬(52 ≤ MAX_GRAPH_HITS) :=
  ⟨by decide, by decide⟩

/-- Claim C2 amended: the shown-hit count — which counts exactly the records
appended at record-marker or end-of-input finalizations — is at most the
fixed maximum (50) and at most the length of the returned list; score-line
finalizations append further records without being counted or bounded. -/
theorem C2_amended (lines : List String) (t sh : ℕ)
    (recs : List HitRecord) (h : parse_hits lines = some (t, sh, recs)) :
    sh ≤ MAX_GRAPH_HITS ∧ sh ≤ recs.length := by
  obtain ⟨s, s2, hrun, hfin, hout⟩ := parse_hits_elim lines (t, sh, recs) h
  have hinv := parseRun_inv
    (fun s => s.show_hits ≤ MAX_GRAPH_HITS ∧ s.show_hits ≤ s.records.length)
    (fun _ => True)
    (fun s l s' _ hstep hp => lenInv_step s l s' hstep hp)
    lines initParseState s (fun _ _ => trivial) hrun ⟨by decide, by decide⟩
  obtain ⟨h1, h2⟩ := hinv
  have hS : sh = s2.show_hits := congrArg (fun p => p.2.1) hout
  have hR : recs = s2.records := congrArg (fun p => p.2.2) hout
  rcases parseFinal_facts s s2 hfin with
    ⟨r, _, _, hmax, _, hrec2, hsh2, _⟩ | heq
  · rw [hS, hR, hsh2, hrec2]
    simp only [List.length_append, List.length_singleton]
    exact ⟨by omega, by omega⟩
  · rw [hS, hR, heq]
    exact ⟨h1, h2⟩

/-- Witness for the amended C2 at a concrete three-line report. -/
theorem C2_amended_witness :
    (1 : ℕ) ≤ MAX_GRAPH_HITS ∧ (1 : ℕ) ≤ ([W2rec] : List HitRecord).length :=
  C2_amended W2lines 1 1 [W2rec] (by decide)

/-- Claim C4: every hit record in the list returned by the Hit Extractor
has a p-value at most the fixed significance cutoff (0.05); every append
site of `parse_hits` is guarded by the cutoff comparison. -/
theorem C4_pvalue_cutoff (lines : List String) (out : ℕ × ℕ × List HitRecord)
    (h : parse_hits lines = some out) :
    ∀ rec ∈ out.2.2, rec.pvalue.val ≤ PVALUE_CUTOFF := by
  obtain ⟨s, s2, hrun, hfin, hout⟩ := parse_hits_elim lines out h
  have hinv := parseRun_inv
    (fun s => ∀ rec ∈ s.records, rec.pvalue.val ≤ PVALUE_CUTOFF)
    (fun _ => True)
    (fun s l s' _ hstep hp => pvalInv_step s l s' hstep hp)
    lines initParseState s (fun _ _ => trivial) hrun
    (fun rec hm => absurd hm (by simp [initParseState]))
  have hR : out.2.2 = s2.records := congrArg (fun p => p.2.2) hout
  rw [hR]
  rcases parseFinal_facts s s2 hfin with ⟨r, hrp, hcut, _, _, hrec2, _, _⟩ | heq
  · rw [hrec2]
    intro rec hm
    rcases List.mem_append.mp hm with hm2 | hm2
    · exact hinv rec hm2
    · rw [List.mem_singleton.mp hm2, hrp]
      exact hcut
  · rw [heq]
    exact hinv

/-- Witness for C4 at a concrete three-line report with one retained hit. -/
theorem C4_witness : W4rec.pvalue.val ≤ PVALUE_CUTOFF :=
  C4_pvalue_cutoff W4lines (1, 1, [W4rec]) (by decide) W4rec (by decide)

/-- Claim C9: the p-value to exponent conversion maps an exact-zero p-value
to the sentinel -500; when the textual form contains a dash, it returns 0
minus the integer value of the piece after the first dash (the negated
exponent of a scientific-notation p-value); otherwise it returns the raw
value unchanged. -/
theorem C9_pvalue_exp (p : PyFloat) :
    (p.val = 0 → pvalue_to_exp p = some (-500)) ∧
    (p.val ≠ 0 → ∀ piece, (pySplit p.repr "-").get? 1 = some piece →
      pvalue_to_exp p = (pyInt? piece).map (fun n => 0 - (n : ℚ))) ∧
    (p.val ≠ 0 → (pySplit p.repr "-").get? 1 = none →
      pvalue_to_exp p = some p.val) := by
  refine ⟨fun h0 => ?_, fun hne piece hp => ?_, fun hne hp => ?_⟩
  · unfold pvalue_to_exp
    rw [if_pos h0]
  · unfold pvalue_to_exp
    rw [if_neg hne, hp]
    dsimp only
    cases pyInt? piece <;> rfl
  · unfold pvalue_to_exp
    rw [if_neg hne, hp]

/-- Witness for C9 at the three kinds of p-values: exact zero, scientific
notation with negative exponent, and a plain decimal. -/
theorem C9_witness :
    pvalue_to_exp ⟨0, "0.0"⟩ = some (-500) ∧
    pvalue_to_exp ⟨mkRat 1 (10 ^ 50), "2e-50"⟩ = some (0 - ((50 : ℤ) : ℚ)) ∧
    pvalue_to_exp ⟨mkRat 1 1000, "0.001"⟩ = some (mkRat 1 1000) := by
  refine ⟨(C9_pvalue_exp ⟨0, "0.0"⟩).1 rfl, ?_,
    (C9_pvalue_exp ⟨mkRat 1 1000, "0.001"⟩).2.2 (by decide) (by decide)⟩
  rw [(C9_pvalue_exp ⟨mkRat 1 (10 ^ 50), "2e-50"⟩).2.1 (by decide) "50" (by decide)]
  rfl

/-- Claim C10: when a record marker finalizes a truthy candidate that is not
retained (p-value above the cutoff, or the shown count at the maximum), the
per-alignment accumulators — query start, query end, strand, score, p-value
and the same-row flag — are left unchanged; only the identifier and
description are replaced (and the total count increments). -/
theorem C10_frame (s : ParseState) (l : String) (s' : ParseState)
    (hgt : pyStartsWith l ">" = true)
    (hid : pyTruthyStr s.id_str = true)
    (hst : pyTruthyInt s.start = true)
    (hen : pyTruthyInt s.end_ = true)
    (hnot : ¬(s.pvalue.val ≤ PVALUE_CUTOFF ∧ s.show_hits < MAX_GRAPH_HITS))
    (h : parseStep s l = some s') :
    s'.start = s.start ∧ s'.end_ = s.end_ ∧ s'.strand = s.strand ∧
    s'.score = s.score ∧ s'.pvalue = s.pvalue ∧ s'.same_row = s.same_row ∧
    s'.query_length = s.query_length ∧
    s'.id_str = some (get_id_desc l).1 ∧ s'.desc = (get_id_desc l).2 ∧
    s'.total_hits = s.total_hits + 1 ∧ s'.show_hits = s.show_hits ∧
    s'.records = s.records := by
  have hnl := starts_gt_not_length l hgt
  unfold parseStep at h
  have hL : stepLength s l = some s := by
    unfold stepLength
    rw [if_neg (fun hx => by rw [hnl] at hx; exact absurd hx.1 (by simp))]
  rw [hL] at h
  dsimp only at h
  rw [if_pos hgt] at h
  obtain ⟨s2, hfin, hs'⟩ := stepMarker_shape s l s' h
  rcases markerFinalize_shape _ _ hfin with ⟨r, _, hcut, hmax, _, _⟩ | hs2
  · exact absurd ⟨hcut, hmax⟩ hnot
  · rw [hs', hs2]
    exact ⟨rfl, rfl, rfl, rfl, rfl, rfl, rfl, rfl, rfl, rfl, rfl, rfl⟩

/-- Witness for C10: a concrete truthy candidate with p-value 1.0 hits the
marker `>Y d`; the accumulators survive and only identifier, description and
total count change. -/
theorem C10_witness :
    W10out.start = W10state.start ∧ W10out.pvalue = W10state.pvalue ∧
    W10out.id_str = some (get_id_desc ">Y d").1 ∧
    W10out.total_hits = W10state.total_hits + 1 ∧
    W10out.records = W10state.records := by
  obtain ⟨h1, h2, h3, h4, h5, h6, h7, h8, h9, h10, h11, h12⟩ :=
    C10_frame W10state ">Y d" W10out (by decide) (by decide) (by decide)
      (by decide) (by decide) (by decide)
  exact ⟨h1, h5, h8, h10, h12⟩

/-- Claim C7: the chromosome table maps the Roman tag IV to the number 4;
number 17 carries the tag mt, whose lookup label is Mito, mapped back to 17;
a tag with no matching entry resolves to the absent value, without raising. -/
theorem C7_roman_table :
    dget roman2number "IV" = some "4" ∧
    dget number2roman "17" = some "mt" ∧
    dget roman2number "Mito" = some "17" ∧
    (∀ tag : String, (∀ q ∈ roman2number, q.1 ≠ tag) →
      dget roman2number tag = none) := by
  refine ⟨by decide, by decide, by decide, fun tag h => dget_eq_none _ _ h⟩

/-- Witness for C7 at the unmatched tag QQ. -/
theorem C7_witness : dget roman2number "QQ" = none :=
  C7_roman_table.2.2.2 "QQ" (by decide)

set_option maxRecDepth 10000 in
/-- Claim C1 (as stated) is false: for the record of `C1input`, whose
subject lines carry the pairs (100, 200) and (250, 150), the coordinate pair
the scan derives for the locator link is not (100, 250) — the emitted
retrieve-sequence link does not carry the range 100..250. -/
theorem C1_counterexample :
    ¬((chromRun initChromState (pyLines C1input)).map
        (fun st => (st.beg, st.end_)) = some ("100", "250")) ∧
    (markup_chromosomal_coord C1input).map (pyContains "&start=100&end=250") =
      some false :=
  ⟨by decide, by decide⟩

set_option maxRecDepth 10000 in
/-- Claim C1 amended: the derived pair is (100, 150) — the first coordinate
of the record's first subject line and the last coordinate of its last
subject line, with no per-pair order normalization in this pass — and the
locator link carries the range 100..150. -/
theorem C1_amended :
    (chromRun initChromState (pyLines C1input)).map
      (fun st => (st.beg, st.end_)) = some ("100", "150") ∧
    (markup_chromosomal_coord C1input).map (pyContains "&start=100&end=150") =
      some true :=
  ⟨by decide, by decide⟩

set_option maxRecDepth 10000 in
/-- Claim C5 (as stated) is false: on `C5input`, whose chromosome tag QQ
matches no table entry, the annotator does not return annotated output — the
lookup yields the absent value and building the locator link raises (string
concatenation with `None`), modelled by `none`. -/
theorem C5_counterexample :
    markup_chromosomal_coord C5input = none ∧
    (chromRun initChromState (pyLines C5input)).map (fun st => st.chrnum) =
      some none :=
  ⟨by decide, by decide⟩

set_option maxRecDepth 10000 in
/-- Claim C5 amended: an unresolvable chromosome tag yields the absent
chromosome number, and the locator-link construction then fails for any
coordinate strings — the request fails rather than producing a malformed
link. -/
theorem C5_amended :
    (∀ c b e : String, link_out c none b e = none) ∧
    (chromRun initChromState (pyLines C5input)).map (fun st => st.chrnum) =
      some none ∧
    markup_chromosomal_coord C5input = none :=
  ⟨fun c b e => rfl, by decide, by decide⟩

/-- Claim C6 (as stated) is false: on `C6input` (two banner lines and one
payload line) the annotated text has 2 lines while the raw input has 3 — the
pre-processing pass drops lines. -/
theorem C6_counterexample :
    (markup_output "NotFeature" C6input).map numLines = some 2 ∧
    numLines C6input = 3 :=
  ⟨by decide, by decide⟩

/-- Claim C6 amended: for a dataset taking neither annotation branch and a
report none of whose lines matches a pre-processing drop rule — no BLAST
banner line, no collapsed blank (no blank line leads the report or follows
another blank), no dataset-path line, no query-echo line, and no FASTA
artifact (every `.fsa` line also carries `Database:`) — the annotator
returns exactly the pre-processed text, whose line list is at least as long
as the input's. -/
theorem C6_amended (dataset raw : String)
    (h1 : pyContains "Sc_nuclear" dataset = false)
    (h2 : pyContains "Sc_mito" dataset = false)
    (h3 : pyContains "NotFeature" dataset = true)
    (hl : ∀ l ∈ pyLines raw, dropFree l)
    (hb : noCollapse "" (pyLines raw) = true) :
    markup_output dataset raw = some (markup_preprocess raw) ∧
    (pyLines raw).length ≤ (markup_preprocess_lines (pyLines raw)).length := by
  constructor
  · simp only [markup_output, h1, h2, h3, Bool.false_or, Bool.false_and,
      Bool.not_true, Bool.false_eq_true, if_false]
  · have hg := prep_grow2 (pyLines raw) initPrepState hl hb rfl
    have hi : initPrepState.out.length = 1 := rfl
    unfold markup_preprocess_lines
    omega

/-- Witness for the amended C6 at `W6raw`, a drop-free report containing a
blank line, a length relabel, a database merge, the summary header and an
anchor-rewritten `.fsa`-with-`Database:` line. -/
theorem C6_amended_witness :
    markup_output "NotFeature" W6raw = some (markup_preprocess W6raw) ∧
    (pyLines W6raw).length ≤ (markup_preprocess_lines (pyLines W6raw)).length :=
  C6_amended "NotFeature" W6raw (by decide) (by decide) (by decide)
    (by decide) (by decide)

/-- Claim C8 (as stated) is false in its annotator half: on the zero-marker
report `C8input` the feature branch still recolors the ORF keyword, so the
output differs from the pre-processed text; the extractor half holds at this
input, returning total 0, shown 0 and the empty list. -/
theorem C8_counterexample :
    ¬(markup_output "d" C8input = some (markup_preprocess C8input)) ∧
    parse_hits (pyLines C8input) = some (0, 0, []) :=
  ⟨by decide, by decide⟩

/-- Claim C8 amended: for every zero-marker report the Hit Extractor, when
it returns, returns total 0, shown 0 and the empty list; and the annotator
on the chromosomal branch returns the pre-processed text unchanged apart
from newline-termination of every line, provided no line triggers the
accession rewrite. -/
theorem C8_amended :
    (∀ lines : List String, (∀ l ∈ lines, pyStartsWith l ">" = false) →
      ∀ out, parse_hits lines = some out → out = (0, 0, [])) ∧
    (∀ dataset raw : String,
      pyContains "Sc_nuclear" dataset = true →
      pyContains "[chromosome=2-micron]" (markup_preprocess raw) = false →
      (∀ l ∈ pyLines (markup_preprocess raw),
        pyStartsWith l ">" = false ∧ pyContains "ref|NC_" l = false ∧
        pyContains "gi|" l = false) →
      markup_output dataset raw =
        some (joinNL (pyLines (markup_preprocess raw)))) := by
  constructor
  · intro lines hm out h
    obtain ⟨s, s2, hrun, hfin, hout⟩ := parse_hits_elim lines out h
    have hinv := parseRun_inv
      (fun s => s.id_str = none ∧ s.records = [] ∧ s.show_hits = 0 ∧
        s.total_hits = 0)
      (fun l => pyStartsWith l ">" = false)
      (fun s l s' hq hstep hp => by
        obtain ⟨hid, hrec, hsh, ht⟩ := hp
        obtain ⟨hi2, hr2, hs2, ht2⟩ := parseStep_nomarker s l s' hq hid hstep
        exact ⟨hi2, hr2.trans hrec, hs2.trans hsh, ht2.trans ht⟩)
      lines initParseState s hm hrun ⟨rfl, rfl, rfl, rfl⟩
    obtain ⟨hid, hrec, hsh, ht⟩ := hinv
    rcases parseFinal_facts s s2 hfin with ⟨r, _, _, _, htr, _⟩ | heq
    · rw [hid] at htr
      exact absurd htr (by decide)
    · rw [hout, heq, ht, hsh, hrec]
  · intro dataset raw hds h2m hlines
    simp only [markup_output, hds, Bool.true_or, h2m, Bool.not_false,
      Bool.true_and, if_true]
    unfold markup_chromosomal_coord
    rw [chromRun_passthrough (pyLines (markup_preprocess raw)) initChromState
      hlines rfl]
    dsimp only
    unfold chromFinal
    rw [if_neg (fun hx => hx rfl)]
    rw [show initChromState.newoutput = "" from rfl, String.empty_append]

/-- Witness for the amended C8: a two-line zero-marker report through the
extractor, and the chromosomal branch of the annotator on the same text. -/
theorem C8_amended_witness :
    ((0, 0, []) : ℕ × ℕ × List HitRecord) = (0, 0, []) ∧
    markup_output "Sc_nuclear_chr" "hello\nworld" =
      some (joinNL (pyLines (markup_preprocess "hello\nworld"))) :=
  ⟨C8_amended.1 ["hello", "world"] (by decide) (0, 0, []) (by decide),
   C8_amended.2 "Sc_nuclear_chr" "hello\nworld" (by decide) (by decide)
     (by decide)⟩
